import Mathlib

/-!
Verification development for the data-quality validation and optimization
engine of a portfolio site (source: `dataQualityValidator` module and the
admin `useProjects` hook).

The TypeScript source is shallowly embedded: entity records become Lean
structures, the mutable `DataQualityReport` accumulated by the validator
becomes explicit state passing (each `forEach` loop is a structurally
recursive function threading the report), JS `Set`s are represented by
lists used only through membership, and JS strings are Lean `String`s
(for the Zod identifier schema, which inspects characters, `List Char`).
All definitions are executable.
-/

set_option linter.unusedVariables false
set_option linter.unnecessarySeqFocus false

/-! ## Data model (from the Zod schemas in the source) -/

/-- Company `type` enum: 'Main Partner' | 'Technology Partner' |
'Solution Provider' | 'Category' | 'Invalid Entry'. -/
inductive CompanyType
  | mainPartner
  | technologyPartner
  | solutionProvider
  | category
  | invalidEntry
deriving DecidableEq, Repr

/-- Company `status` enum: 'active' | 'inactive' | 'mentioned'. -/
inductive CompanyStatus
  | active
  | inactive
  | mentioned
deriving DecidableEq, Repr

structure Company where
  id : String
  name : String
  type : CompanyType
  status : CompanyStatus
deriving DecidableEq, Repr

structure Technology where
  id : String
  name : String
  category : String
  subcategory : Option String
deriving DecidableEq, Repr

/-- Module `category` enum: 'core' | 'business' | 'integration'. -/
inductive ModuleCategory
  | core
  | business
  | integration
deriving DecidableEq, Repr

/-- Source name: `Module` (renamed here because `Module` is taken by Mathlib). -/
structure ModuleEntity where
  id : String
  name : String
  type : String
  category : ModuleCategory
  platform : Option String
deriving DecidableEq, Repr

/-- Project `status` enum: 'completed' | 'planned' | 'in-progress' | 'on-hold'. -/
inductive ProjectStatus
  | completed
  | planned
  | inProgress
  | onHold
deriving DecidableEq, Repr

/-- Source name: `DataProject` (z.infer of `DataProjectSchema`). -/
structure DataProject where
  id : String
  name : String
  status : ProjectStatus
  description : String
  partners : List String
  technologies : List String
  platforms : List String
  modules : List String
  deliverables : List String
deriving DecidableEq, Repr

/-- Integration `status` enum: 'active' | 'planned' | 'deprecated'. -/
inductive IntegrationStatus
  | active
  | planned
  | deprecated
deriving DecidableEq, Repr

structure Integration where
  id : String
  source : String
  target : String
  type : String
  status : IntegrationStatus
  projects : List String
deriving DecidableEq, Repr

structure ProjectMetadata where
  name : String
  version : String
  lastUpdated : String
  description : String
deriving DecidableEq, Repr

/-- The `entities` sub-object of `PortfolioDataSchema`. -/
structure EntityCollections where
  companies : List Company
  technologies : List Technology
  modules : List ModuleEntity
deriving DecidableEq, Repr

structure CompanyTechRel where
  company : String
  technologies : List String
deriving DecidableEq, Repr

structure ProjectModulesRel where
  project : String
  modules : List String
deriving DecidableEq, Repr

structure TechDependencyRel where
  technology : String
  dependencies : List String
deriving DecidableEq, Repr

structure Relationships where
  companyTechnologies : List CompanyTechRel
  projectModules : List ProjectModulesRel
  technologyDependencies : List TechDependencyRel
deriving DecidableEq, Repr

structure ValidationRule where
  rule : String
  description : String
deriving DecidableEq, Repr

inductive ValidationStatus
  | passed
  | failed
  | pending
deriving DecidableEq, Repr

structure DataQualityMeta where
  validationRules : List ValidationRule
  lastValidated : String
  validationStatus : ValidationStatus
deriving DecidableEq, Repr

/-- The full snapshot shape (`PortfolioData` in the source). -/
structure PortfolioData where
  projectMetadata : ProjectMetadata
  entities : EntityCollections
  projects : List DataProject
  integrations : List Integration
  relationships : Relationships
  dataQuality : Option DataQualityMeta
deriving DecidableEq, Repr

/-! ## The quality report (`DataQualityReport` interface) -/

/-- Error kind: 'duplicate' | 'missing_reference' | 'invalid_data' | 'schema_violation'. -/
inductive ErrorType
  | duplicate
  | missing_reference
  | invalid_data
  | schema_violation
deriving DecidableEq, Repr

structure QualityError where
  type : ErrorType
  entity : String
  field : Option String
  message : String
  value : Option String
deriving DecidableEq, Repr

/-- Warning kind: 'unused_entity' | 'circular_reference' | 'deprecated'. -/
inductive WarningType
  | unused_entity
  | circular_reference
  | deprecated
deriving DecidableEq, Repr

structure QualityWarning where
  type : WarningType
  entity : String
  message : String
deriving DecidableEq, Repr

structure QualityStats where
  totalEntities : Nat
  duplicates : Nat
  brokenReferences : Nat
  unusedEntities : Nat
deriving DecidableEq, Repr

structure DataQualityReport where
  isValid : Bool
  errors : List QualityError
  warnings : List QualityWarning
  stats : QualityStats
deriving DecidableEq, Repr

/-- The freshly initialized report at the top of `validateDataQuality`. -/
def emptyReport : DataQualityReport :=
  { isValid := true
    errors := []
    warnings := []
    stats := { totalEntities := 0, duplicates := 0, brokenReferences := 0, unusedEntities := 0 } }

/-! ## validateDataQuality: duplicate pass (`checkDuplicates`) -/

/-- The error pushed on a repeated id inside `checkDuplicates`. -/
def mkDupError (entityType eid : String) : QualityError :=
  { type := .duplicate
    entity := entityType
    field := some "id"
    message := "Duplicate ID found: " ++ eid
    value := some eid }

/-- The `entities.forEach` loop of `checkDuplicates`.  The JS `Set` of seen
ids is represented by a list used only through membership; the loop adds the
current id after the check, as the source does (`ids.add(entity.id)` runs on
both branches). -/
def dupLoop (entityType : String) (seen : List String) :
    List String → DataQualityReport → DataQualityReport
  | [], r => r
  | eid :: rest, r =>
    if eid ∈ seen then
      dupLoop entityType (eid :: seen) rest
        { r with
          errors := r.errors ++ [mkDupError entityType eid]
          stats := { r.stats with duplicates := r.stats.duplicates + 1 }
          isValid := false }
    else
      dupLoop entityType (eid :: seen) rest r

/-- `checkDuplicates` from the source, specialized to the id projection of
the entity array (the generic loop only reads `entity.id`).  After the loop,
`report.stats.totalEntities += entities.length`. -/
def checkDuplicates (entityType : String) (ids : List String)
    (r : DataQualityReport) : DataQualityReport :=
  let r := dupLoop entityType [] ids r
  { r with stats := { r.stats with totalEntities := r.stats.totalEntities + ids.length } }

/-! ## validateDataQuality: reference pass -/

def mkPartnerError (p : DataProject) (x : String) : QualityError :=
  { type := .missing_reference
    entity := "projects"
    field := some "partners"
    message := "Project \"" ++ p.name ++ "\" references non-existent company: " ++ x
    value := some x }

def mkTechRefError (p : DataProject) (x : String) : QualityError :=
  { type := .missing_reference
    entity := "projects"
    field := some "technologies"
    message := "Project \"" ++ p.name ++ "\" references non-existent technology: " ++ x
    value := some x }

def mkModuleRefError (p : DataProject) (x : String) : QualityError :=
  { type := .missing_reference
    entity := "projects"
    field := some "modules"
    message := "Project \"" ++ p.name ++ "\" references non-existent module: " ++ x
    value := some x }

def mkIntegrationRefError (ig : Integration) (fieldName x : String) : QualityError :=
  { type := .missing_reference
    entity := "integrations"
    field := some fieldName
    message := "Integration \"" ++ ig.id ++ "\" references non-existent entity: " ++ x
    value := some x }

def mkIntegrationProjectError (ig : Integration) (x : String) : QualityError :=
  { type := .missing_reference
    entity := "integrations"
    field := some "projects"
    message := "Integration \"" ++ ig.id ++ "\" references non-existent project: " ++ x
    value := some x }

/-- One `forEach` loop over a list of referenced ids: any id absent from
`validIds` pushes a missing-reference error and bumps
`stats.brokenReferences`.  This is the shared shape of the `partners`,
`technologies`, `modules` and `integration.projects` loops; the error
constructor is the per-site parameter. -/
def refLoop (validIds : List String) (mkErr : String → QualityError) :
    List String → DataQualityReport → DataQualityReport
  | [], r => r
  | x :: rest, r =>
    if x ∈ validIds then
      refLoop validIds mkErr rest r
    else
      refLoop validIds mkErr rest
        { r with
          errors := r.errors ++ [mkErr x]
          stats := { r.stats with brokenReferences := r.stats.brokenReferences + 1 }
          isValid := false }

/-- The per-project body of `data.projects.forEach`: partners, then
technologies, then modules. -/
def checkProjectRefs (companyIds techIds moduleIds : List String)
    (p : DataProject) (r : DataQualityReport) : DataQualityReport :=
  let r := refLoop companyIds (mkPartnerError p) p.partners r
  let r := refLoop techIds (mkTechRefError p) p.technologies r
  refLoop moduleIds (mkModuleRefError p) p.modules r

/-- `validateRef` from the integrations loop: a reference is accepted when
it is the literal string "system", a technology id, or a module id. -/
def validateRef (techIds moduleIds : List String) (ig : Integration)
    (refId fieldName : String) (r : DataQualityReport) : DataQualityReport :=
  if refId ≠ "system" ∧ refId ∉ techIds ∧ refId ∉ moduleIds then
    { r with
      errors := r.errors ++ [mkIntegrationRefError ig fieldName refId]
      stats := { r.stats with brokenReferences := r.stats.brokenReferences + 1 }
      isValid := false }
  else r

/-- The per-integration body of `data.integrations.forEach`: source, target,
then the projects list. -/
def checkIntegrationRefs (techIds moduleIds projectIds : List String)
    (ig : Integration) (r : DataQualityReport) : DataQualityReport :=
  let r := validateRef techIds moduleIds ig ig.source "source" r
  let r := validateRef techIds moduleIds ig ig.target "target" r
  refLoop projectIds (mkIntegrationProjectError ig) ig.projects r

def projectsRefLoop (companyIds techIds moduleIds : List String) :
    List DataProject → DataQualityReport → DataQualityReport
  | [], r => r
  | p :: rest, r =>
    projectsRefLoop companyIds techIds moduleIds rest
      (checkProjectRefs companyIds techIds moduleIds p r)

def integrationsRefLoop (techIds moduleIds projectIds : List String) :
    List Integration → DataQualityReport → DataQualityReport
  | [], r => r
  | ig :: rest, r =>
    integrationsRefLoop techIds moduleIds projectIds rest
      (checkIntegrationRefs techIds moduleIds projectIds ig r)

/-! ## validateDataQuality: unused-entity pass -/

def mkUnusedTechWarning (t : Technology) : QualityWarning :=
  { type := .unused_entity
    entity := "technologies"
    message := "Technology \"" ++ t.name ++ "\" (" ++ t.id ++ ") is not used in any project or integration" }

def mkUnusedModuleWarning (m : ModuleEntity) : QualityWarning :=
  { type := .unused_entity
    entity := "modules"
    message := "Module \"" ++ m.name ++ "\" (" ++ m.id ++ ") is not used in any project" }

def mkUnusedCompanyWarning (c : Company) : QualityWarning :=
  { type := .unused_entity
    entity := "companies"
    message := "Active company \"" ++ c.name ++ "\" (" ++ c.id ++ ") is not associated with any project" }

/-- One `forEach` loop of the unused-entity pass: entities satisfying
`flag` push a warning and bump `stats.unusedEntities`. -/
def unusedLoop {α : Type} (flag : α → Bool) (mkWarn : α → QualityWarning) :
    List α → DataQualityReport → DataQualityReport
  | [], r => r
  | e :: rest, r =>
    if flag e then
      unusedLoop flag mkWarn rest
        { r with
          warnings := r.warnings ++ [mkWarn e]
          stats := { r.stats with unusedEntities := r.stats.unusedEntities + 1 } }
    else
      unusedLoop flag mkWarn rest r

/-! ## validateDataQuality: id sets and assembly -/

def companyIdsOf (d : PortfolioData) : List String := d.entities.companies.map (fun c => c.id)

def techIdsOf (d : PortfolioData) : List String := d.entities.technologies.map (fun t => t.id)

def moduleIdsOf (d : PortfolioData) : List String := d.entities.modules.map (fun m => m.id)

def projectIdsOf (d : PortfolioData) : List String := d.projects.map (fun p => p.id)

def integrationIdsOf (d : PortfolioData) : List String := d.integrations.map (fun ig => ig.id)

/-- `usedTechIds`: technologies referenced by some project, plus
integration sources/targets other than the literal "system". -/
def usedTechIdsOf (d : PortfolioData) : List String :=
  (d.projects.map (fun p => p.technologies)).flatten ++
    (d.integrations.map (fun ig =>
      (if ig.source = "system" then [] else [ig.source]) ++
        (if ig.target = "system" then [] else [ig.target]))).flatten

/-- `usedModuleIds`: modules referenced by some project. -/
def usedModuleIdsOf (d : PortfolioData) : List String :=
  (d.projects.map (fun p => p.modules)).flatten

/-- `usedCompanyIds`: companies referenced as a partner by some project. -/
def usedCompanyIdsOf (d : PortfolioData) : List String :=
  (d.projects.map (fun p => p.partners)).flatten

/-- `validateDataQuality` from the source: duplicate pass over the five
collections (companies, technologies, modules, projects, integrations, in
that order), then reference pass against id sets built from the raw
collections, then the unused-entity pass. -/
def validateDataQuality (data : PortfolioData) : DataQualityReport :=
  let r := emptyReport
  let r := checkDuplicates "companies" (companyIdsOf data) r
  let r := checkDuplicates "technologies" (techIdsOf data) r
  let r := checkDuplicates "modules" (moduleIdsOf data) r
  let r := checkDuplicates "projects" (projectIdsOf data) r
  let r := checkDuplicates "integrations" (integrationIdsOf data) r
  let r := projectsRefLoop (companyIdsOf data) (techIdsOf data) (moduleIdsOf data) data.projects r
  let r := integrationsRefLoop (techIdsOf data) (moduleIdsOf data) (projectIdsOf data) data.integrations r
  let r := unusedLoop (fun t => decide (t.id ∉ usedTechIdsOf data)) mkUnusedTechWarning data.entities.technologies r
  let r := unusedLoop (fun m => decide (m.id ∉ usedModuleIdsOf data)) mkUnusedModuleWarning data.entities.modules r
  let r := unusedLoop (fun c => decide (c.status = CompanyStatus.active ∧ c.id ∉ usedCompanyIdsOf data)) mkUnusedCompanyWarning data.entities.companies r
  r

/-! ## deduplicateData and optimizeData -/

/-- The `entities.filter` loop inside `deduplicate`: keep an element when
its id has not been seen, recording the id exactly when the element is
kept (the source adds to `seen` only on the `true` branch). -/
def dedupLoop {α : Type} (getId : α → String) (seen : List String) :
    List α → List α
  | [] => []
  | e :: rest =>
    if getId e ∈ seen then
      dedupLoop getId seen rest
    else
      e :: dedupLoop getId (getId e :: seen) rest

/-- `deduplicateData` from the source: per-collection first-occurrence
deduplication of the five collections; every other snapshot field is
spread through unchanged. -/
def deduplicateData (data : PortfolioData) : PortfolioData :=
  { data with
    entities :=
      { companies := dedupLoop (fun c => c.id) [] data.entities.companies
        technologies := dedupLoop (fun t => t.id) [] data.entities.technologies
        modules := dedupLoop (fun m => m.id) [] data.entities.modules }
    projects := dedupLoop (fun p => p.id) [] data.projects
    integrations := dedupLoop (fun ig => ig.id) [] data.integrations }

/-- `optimizeData` from the source.  The source declares the second
parameter with default `false`; the default is spelled at call sites here.
When `removeUnused` is true it computes a quality report and a set of
"unused ids" (actually the warnings' entity-type strings) but then returns
the input unchanged: the removal is left unimplemented. -/
def optimizeData (data : PortfolioData) (removeUnused : Bool) : PortfolioData :=
  if !removeUnused then
    data
  else
    let report := validateDataQuality data
    let unusedIds := (report.warnings.filter
      (fun w => w.type == WarningType.unused_entity)).map (fun w => w.entity)
    data

/-! ## The Zod identifier schema (`entityIdSchema`)

`z.string().min(1).regex(/^[a-z0-9_-]+$/).transform(v => v.toLowerCase().trim())`.
Zod runs the string checks (`min`, `regex`) on the raw input and applies the
`transform` only after those checks succeed.  Strings are modelled as
`List Char`; the character classes and JS `toLowerCase`/`trim` are modelled
over code points. -/

/-- Character class of the regex `[a-z0-9_-]`: `a`-`z` (97-122),
`0`-`9` (48-57), `_` (95), `-` (45). -/
def idCharOk (c : Char) : Bool :=
  (97 ≤ c.toNat && c.toNat ≤ 122) || (48 ≤ c.toNat && c.toNat ≤ 57) ||
    c.toNat == 95 || c.toNat == 45

/-- JS `toLowerCase` on one character, restricted to ASCII: `A`-`Z`
(65-90) maps down by 32, everything else is unchanged. -/
def toLowerChar (c : Char) : Char :=
  if 65 ≤ c.toNat ∧ c.toNat ≤ 90 then Char.ofNat (c.toNat + 32) else c

def jsToLower (s : List Char) : List Char := s.map toLowerChar

/-- Whitespace removed by JS `trim` (the ASCII cases: space, tab, LF, VT,
FF, CR). -/
def jsWhitespace (c : Char) : Bool :=
  c.toNat == 32 || c.toNat == 9 || c.toNat == 10 || c.toNat == 11 ||
    c.toNat == 12 || c.toNat == 13

def jsTrim (s : List Char) : List Char :=
  ((s.dropWhile jsWhitespace).reverse.dropWhile jsWhitespace).reverse

/-- `entityIdSchema`: `min(1)` and the regex validate the raw input;
on success the transform `toLowerCase().trim()` produces the parsed value. -/
def entityIdSchema (s : List Char) : Option (List Char) :=
  if 1 ≤ s.length ∧ s.all idCharOk then some (jsTrim (jsToLower s)) else none

/-- The identifier schema as the claim describes it: normalize (lowercase,
trim) first, then accept exactly when the normalized form is non-empty and
matches `[a-z0-9_-]+`. -/
def entityIdSchemaClaimed (s : List Char) : Option (List Char) :=
  let n := jsTrim (jsToLower s)
  if 1 ≤ n.length ∧ n.all idCharOk then some n else none

/-! ## Admin-side quality check (`runQualityCheck` and the derived score,
from the `useProjects` hook) -/

structure AdminProject where
  id : String
  title : String
deriving DecidableEq, Repr

structure AdminSkill where
  id : String
  name : String
deriving DecidableEq, Repr

structure AdminExperience where
  id : String
deriving DecidableEq, Repr

/-- One step of `map.set(title, (map.get(title) || 0) + 1)` on a JS `Map`
kept as an insertion-ordered association list: an existing key is updated
in place, a new key is appended. -/
def bumpCount : List (String × Nat) → String → List (String × Nat)
  | [], k => [(k, 1)]
  | (k', n) :: rest, k =>
    if k' = k then (k', n + 1) :: rest else (k', n) :: bumpCount rest k

def freqLoop : List String → List (String × Nat) → List (String × Nat)
  | [], m => m
  | t :: rest, m => freqLoop rest (bumpCount m t)

/-- The frequency map built by the `projects.forEach` / `skills.forEach`
counting loops. -/
def freqMap (l : List String) : List (String × Nat) := freqLoop l []

def mkDupTitleWarning (title : String) (n : Nat) : QualityWarning :=
  { type := .unused_entity
    entity := "projects"
    message := "Duplicate project title found: \"" ++ title ++ "\" (" ++ toString n ++ " times)" }

def mkDupSkillWarning (nm : String) (n : Nat) : QualityWarning :=
  { type := .unused_entity
    entity := "skills"
    message := "Duplicate skill name found: \"" ++ nm ++ "\" (" ++ toString n ++ " times)" }

/-- The `forEach` over the frequency map: every entry with count > 1
pushes one warning and bumps `stats.duplicates` once. -/
def dupWarnLoop (mkWarn : String → Nat → QualityWarning) :
    List (String × Nat) → DataQualityReport → DataQualityReport
  | [], r => r
  | (k, n) :: rest, r =>
    if 1 < n then
      dupWarnLoop mkWarn rest
        { r with
          warnings := r.warnings ++ [mkWarn k n]
          stats := { r.stats with duplicates := r.stats.duplicates + 1 } }
    else
      dupWarnLoop mkWarn rest r

/-- `runQualityCheck` from the `useProjects` hook: initial stats count all
three lists, then duplicate project titles and duplicate skill names are
reported, one warning per distinct duplicated value. -/
def runQualityCheck (projects : List AdminProject) (skills : List AdminSkill)
    (experiences : List AdminExperience) : DataQualityReport :=
  let report : DataQualityReport :=
    { isValid := true
      errors := []
      warnings := []
      stats := { totalEntities := projects.length + skills.length + experiences.length
                 duplicates := 0
                 brokenReferences := 0
                 unusedEntities := 0 } }
  let report := dupWarnLoop mkDupTitleWarning (freqMap (projects.map (fun p => p.title))) report
  let report := dupWarnLoop mkDupSkillWarning (freqMap (skills.map (fun s => s.name))) report
  report

/-- The `dataQualityScore` computation in the `stats` memo of the
`useProjects` hook: starting from 100, subtract 10 per duplicate, 15 per
broken reference and 2 per unused entity, then clamp into [0, 100] via
`Math.max(0, Math.min(100, q))`.  Without a report the score stays 100. -/
def dataQualityScore (qualityReport : Option DataQualityReport) : Int :=
  match qualityReport with
  | none => 100
  | some report =>
    let q : Int := 100
    let q := q - (report.stats.duplicates : Int) * 10
    let q := q - (report.stats.brokenReferences : Int) * 15
    let q := q - (report.stats.unusedEntities : Int) * 2
    max 0 (min 100 q)

/-- `clamp(x, lo, hi)` as used in the claim's formula. -/
def clampInt (x lo hi : Int) : Int := max lo (min hi x)

/-! ## Characterization functions (pure descriptions of the loops' output,
used to state the claims) -/

/-- The (position, id) pairs flagged by the duplicate scan started with the
given seen set: an occurrence is flagged exactly when its id was already
seen.  Since the scan adds every processed id, `seen.length` is the current
position when the scan starts from `[]`. -/
def dupFlagsIdx (seen : List String) : List String → List (Nat × String)
  | [] => []
  | a :: l => (if a ∈ seen then [(seen.length, a)] else []) ++ dupFlagsIdx (a :: seen) l

/-- The five collections of a snapshot with their entity-type names, in the
order the duplicate pass scans them. -/
def snapshotCollections (d : PortfolioData) : List (String × List String) :=
  [("companies", companyIdsOf d), ("technologies", techIdsOf d),
    ("modules", moduleIdsOf d), ("projects", projectIdsOf d),
    ("integrations", integrationIdsOf d)]

/-- All duplicate errors of a snapshot, collection by collection. -/
def dupErrorsOf (d : PortfolioData) : List QualityError :=
  ((snapshotCollections d).map
    (fun q => (dupFlagsIdx [] q.2).map (fun p => mkDupError q.1 p.2))).flatten

/-- Total number of extra occurrences in one collection: an id occurring
k ≥ 1 times contributes k - 1, summed over the distinct ids (taken in
first-occurrence order). -/
def extraOccurrences (l : List String) : Nat :=
  ((dedupLoop (fun x => x) [] l).map (fun x => l.count x - 1)).sum

/-- The ids of `refs` that are missing from `validIds`, in order. -/
def brokenOf (validIds refs : List String) : List String :=
  refs.filter (fun x => decide (x ∉ validIds))

/-- The missing-reference errors of one project: partners, technologies,
modules, each checked against the id set of the raw target collection. -/
def projErrorsOf (companyIds techIds moduleIds : List String)
    (p : DataProject) : List QualityError :=
  (brokenOf companyIds p.partners).map (mkPartnerError p) ++
    (brokenOf techIds p.technologies).map (mkTechRefError p) ++
    (brokenOf moduleIds p.modules).map (mkModuleRefError p)

/-- An integration source/target is broken unless it is the literal
"system", a technology id, or a module id. -/
def integrationRefBad (techIds moduleIds : List String) (x : String) : Bool :=
  decide (x ≠ "system" ∧ x ∉ techIds ∧ x ∉ moduleIds)

/-- The missing-reference errors of one integration: source, target, then
each entry of its projects list. -/
def integErrorsOf (techIds moduleIds projectIds : List String)
    (ig : Integration) : List QualityError :=
  (if integrationRefBad techIds moduleIds ig.source
    then [mkIntegrationRefError ig "source" ig.source] else []) ++
  (if integrationRefBad techIds moduleIds ig.target
    then [mkIntegrationRefError ig "target" ig.target] else []) ++
  (brokenOf projectIds ig.projects).map (mkIntegrationProjectError ig)

/-- All missing-reference errors of a snapshot: one error per broken
reference instance, projects first, then integrations, with the id sets
built from the raw (possibly duplicate-containing) collections. -/
def refErrorsOf (d : PortfolioData) : List QualityError :=
  (d.projects.map (projErrorsOf (companyIdsOf d) (techIdsOf d) (moduleIdsOf d))).flatten ++
    (d.integrations.map (integErrorsOf (techIdsOf d) (moduleIdsOf d) (projectIdsOf d))).flatten

/-- All unused-entity warnings of a snapshot: technologies, then modules,
then companies (only active companies are eligible). -/
def unusedWarningsOf (d : PortfolioData) : List QualityWarning :=
  (d.entities.technologies.filter (fun t => decide (t.id ∉ usedTechIdsOf d))).map mkUnusedTechWarning ++
    (d.entities.modules.filter (fun m => decide (m.id ∉ usedModuleIdsOf d))).map mkUnusedModuleWarning ++
    (d.entities.companies.filter
      (fun c => decide (c.status = CompanyStatus.active ∧ c.id ∉ usedCompanyIdsOf d))).map mkUnusedCompanyWarning

/-- The duplicate pass of `validateDataQuality` (the five `checkDuplicates`
calls, in source order), as a function of the incoming report. -/
def dupPass (d : PortfolioData) (r : DataQualityReport) : DataQualityReport :=
  checkDuplicates "integrations" (integrationIdsOf d)
    (checkDuplicates "projects" (projectIdsOf d)
      (checkDuplicates "modules" (moduleIdsOf d)
        (checkDuplicates "technologies" (techIdsOf d)
          (checkDuplicates "companies" (companyIdsOf d) r))))

/-- The reference pass of `validateDataQuality` (projects loop, then
integrations loop). -/
def refPass (d : PortfolioData) (r : DataQualityReport) : DataQualityReport :=
  integrationsRefLoop (techIdsOf d) (moduleIdsOf d) (projectIdsOf d) d.integrations
    (projectsRefLoop (companyIdsOf d) (techIdsOf d) (moduleIdsOf d) d.projects r)

/-- The unused-entity pass of `validateDataQuality` (technologies, then
modules, then companies). -/
def unusedPass (d : PortfolioData) (r : DataQualityReport) : DataQualityReport :=
  unusedLoop (fun c => decide (c.status = CompanyStatus.active ∧ c.id ∉ usedCompanyIdsOf d))
    mkUnusedCompanyWarning d.entities.companies
    (unusedLoop (fun m => decide (m.id ∉ usedModuleIdsOf d))
      mkUnusedModuleWarning d.entities.modules
      (unusedLoop (fun t => decide (t.id ∉ usedTechIdsOf d))
        mkUnusedTechWarning d.entities.technologies r))

/-- Lookup in the association-list model of the JS `Map` (`map.get`). -/
def findCount : List (String × Nat) → String → Option Nat
  | [], _ => none
  | (k2, n) :: rest, k => if k2 = k then some n else findCount rest k

/-! ## Sample data (used in concrete scenarios and witnesses) -/

def emptyMetadata : ProjectMetadata :=
  { name := "", version := "", lastUpdated := "", description := "" }

def emptyRelationships : Relationships :=
  { companyTechnologies := [], projectModules := [], technologyDependencies := [] }

/-- The empty snapshot (Scenario D shape). -/
def emptySnapshot : PortfolioData :=
  { projectMetadata := emptyMetadata
    entities := { companies := [], technologies := [], modules := [] }
    projects := []
    integrations := []
    relationships := emptyRelationships
    dataQuality := none }

def mkSampleCompany (i : String) : Company :=
  { id := i, name := i, type := CompanyType.mainPartner, status := CompanyStatus.active }

/-- Scenario B: two companies both with id "acme". -/
def sampleDupSnapshot : PortfolioData :=
  { emptySnapshot with
    entities :=
      { companies := [mkSampleCompany "acme", mkSampleCompany "acme"]
        technologies := []
        modules := [] } }

/-- A report with one error; stats 5/1/2/3. -/
def sampleReportA : DataQualityReport :=
  { isValid := false
    errors := [mkDupError "companies" "acme"]
    warnings := []
    stats := { totalEntities := 5, duplicates := 1, brokenReferences := 2, unusedEntities := 3 } }

/-- A report with no errors but the same stats as `sampleReportA`. -/
def sampleReportB : DataQualityReport :=
  { isValid := true
    errors := []
    warnings := []
    stats := { totalEntities := 5, duplicates := 1, brokenReferences := 2, unusedEntities := 3 } }

/-! ## Loop characterization lemmas -/

theorem isEmpty_append {α : Type} (l l' : List α) :
    (l ++ l').isEmpty = (l.isEmpty && l'.isEmpty) := by
  cases l <;> simp

theorem isEmpty_map {α β : Type} (f : α → β) (l : List α) :
    (l.map f).isEmpty = l.isEmpty := by
  cases l <;> simp

theorem dupLoop_spec (t : String) : ∀ (l seen : List String) (r : DataQualityReport),
    (dupLoop t seen l r).errors =
      r.errors ++ (dupFlagsIdx seen l).map (fun q => mkDupError t q.2) ∧
    (dupLoop t seen l r).warnings = r.warnings ∧
    (dupLoop t seen l r).stats.totalEntities = r.stats.totalEntities ∧
    (dupLoop t seen l r).stats.duplicates =
      r.stats.duplicates + (dupFlagsIdx seen l).length ∧
    (dupLoop t seen l r).stats.brokenReferences = r.stats.brokenReferences ∧
    (dupLoop t seen l r).stats.unusedEntities = r.stats.unusedEntities ∧
    (dupLoop t seen l r).isValid = (r.isValid && (dupFlagsIdx seen l).isEmpty) := by
  intro l
  induction l with
  | nil => intro seen r; simp [dupLoop, dupFlagsIdx]
  | cons a l ih =>
    intro seen r
    by_cases h : a ∈ seen
    · obtain ⟨h1, h2, h3, h4, h5, h6, h7⟩ := ih (a :: seen)
        { r with
          errors := r.errors ++ [mkDupError t a]
          stats := { r.stats with duplicates := r.stats.duplicates + 1 }
          isValid := false }
      simp only [dupLoop, if_pos h, dupFlagsIdx]
      refine ⟨?_, ?_, ?_, ?_, ?_, ?_, ?_⟩ <;>
        simp [h1, h2, h3, h4, h5, h6, h7] <;> omega
    · obtain ⟨h1, h2, h3, h4, h5, h6, h7⟩ := ih (a :: seen) r
      simp only [dupLoop, if_neg h, dupFlagsIdx]
      exact ⟨by simpa using h1, h2, h3, by simpa using h4, h5, h6, by simpa using h7⟩

theorem refLoop_spec (validIds : List String) (mkErr : String → QualityError) :
    ∀ (l : List String) (r : DataQualityReport),
    (refLoop validIds mkErr l r).errors =
      r.errors ++ (brokenOf validIds l).map mkErr ∧
    (refLoop validIds mkErr l r).warnings = r.warnings ∧
    (refLoop validIds mkErr l r).stats.totalEntities = r.stats.totalEntities ∧
    (refLoop validIds mkErr l r).stats.duplicates = r.stats.duplicates ∧
    (refLoop validIds mkErr l r).stats.brokenReferences =
      r.stats.brokenReferences + (brokenOf validIds l).length ∧
    (refLoop validIds mkErr l r).stats.unusedEntities = r.stats.unusedEntities ∧
    (refLoop validIds mkErr l r).isValid =
      (r.isValid && (brokenOf validIds l).isEmpty) := by
  intro l
  induction l with
  | nil => intro r; simp [refLoop, brokenOf]
  | cons x l ih =>
    intro r
    by_cases h : x ∈ validIds
    · obtain ⟨h1, h2, h3, h4, h5, h6, h7⟩ := ih r
      simp only [refLoop, if_pos h]
      refine ⟨?_, h2, h3, h4, ?_, h6, ?_⟩ <;> simp [brokenOf, h, h1, h5, h7]
    · obtain ⟨h1, h2, h3, h4, h5, h6, h7⟩ := ih
        { r with
          errors := r.errors ++ [mkErr x]
          stats := { r.stats with brokenReferences := r.stats.brokenReferences + 1 }
          isValid := false }
      simp only [refLoop, if_neg h]
      refine ⟨?_, ?_, ?_, ?_, ?_, ?_, ?_⟩ <;>
        simp [brokenOf, h, h1, h2, h3, h4, h5, h6, h7] <;> omega

theorem unusedLoop_spec {α : Type} (flag : α → Bool) (mkWarn : α → QualityWarning) :
    ∀ (l : List α) (r : DataQualityReport),
    (unusedLoop flag mkWarn l r).errors = r.errors ∧
    (unusedLoop flag mkWarn l r).warnings =
      r.warnings ++ (l.filter flag).map mkWarn ∧
    (unusedLoop flag mkWarn l r).stats.totalEntities = r.stats.totalEntities ∧
    (unusedLoop flag mkWarn l r).stats.duplicates = r.stats.duplicates ∧
    (unusedLoop flag mkWarn l r).stats.brokenReferences = r.stats.brokenReferences ∧
    (unusedLoop flag mkWarn l r).stats.unusedEntities =
      r.stats.unusedEntities + (l.filter flag).length ∧
    (unusedLoop flag mkWarn l r).isValid = r.isValid := by
  intro l
  induction l with
  | nil => intro r; simp [unusedLoop]
  | cons e l ih =>
    intro r
    by_cases h : flag e
    · obtain ⟨h1, h2, h3, h4, h5, h6, h7⟩ := ih
        { r with
          warnings := r.warnings ++ [mkWarn e]
          stats := { r.stats with unusedEntities := r.stats.unusedEntities + 1 } }
      simp only [unusedLoop, if_pos h]
      refine ⟨?_, ?_, ?_, ?_, ?_, ?_, ?_⟩ <;>
        simp [h, h1, h2, h3, h4, h5, h6, h7] <;> omega
    · obtain ⟨h1, h2, h3, h4, h5, h6, h7⟩ := ih r
      simp only [unusedLoop, if_neg h]
      refine ⟨h1, ?_, h3, h4, h5, ?_, h7⟩ <;> simp [h, h2, h6]

theorem dupWarnLoop_spec (mkWarn : String → Nat → QualityWarning) :
    ∀ (m : List (String × Nat)) (r : DataQualityReport),
    (dupWarnLoop mkWarn m r).errors = r.errors ∧
    (dupWarnLoop mkWarn m r).warnings =
      r.warnings ++ ((m.filter (fun p => decide (1 < p.2))).map (fun p => mkWarn p.1 p.2)) ∧
    (dupWarnLoop mkWarn m r).stats.totalEntities = r.stats.totalEntities ∧
    (dupWarnLoop mkWarn m r).stats.duplicates =
      r.stats.duplicates + (m.filter (fun p => decide (1 < p.2))).length ∧
    (dupWarnLoop mkWarn m r).stats.brokenReferences = r.stats.brokenReferences ∧
    (dupWarnLoop mkWarn m r).stats.unusedEntities = r.stats.unusedEntities ∧
    (dupWarnLoop mkWarn m r).isValid = r.isValid := by
  intro m
  induction m with
  | nil => intro r; simp [dupWarnLoop]
  | cons p m ih =>
    intro r
    obtain ⟨k, n⟩ := p
    by_cases h : 1 < n
    · obtain ⟨h1, h2, h3, h4, h5, h6, h7⟩ := ih
        { r with
          warnings := r.warnings ++ [mkWarn k n]
          stats := { r.stats with duplicates := r.stats.duplicates + 1 } }
      simp only [dupWarnLoop, if_pos h]
      refine ⟨?_, ?_, ?_, ?_, ?_, ?_, ?_⟩ <;>
        simp [h, h1, h2, h3, h4, h5, h6, h7] <;> omega
    · obtain ⟨h1, h2, h3, h4, h5, h6, h7⟩ := ih r
      simp only [dupWarnLoop, if_neg h]
      refine ⟨h1, ?_, h3, ?_, h5, h6, h7⟩ <;> simp [h, h2, h4]

theorem checkDuplicates_spec (t : String) (ids : List String) (r : DataQualityReport) :
    (checkDuplicates t ids r).errors =
      r.errors ++ (dupFlagsIdx [] ids).map (fun q => mkDupError t q.2) ∧
    (checkDuplicates t ids r).warnings = r.warnings ∧
    (checkDuplicates t ids r).stats.totalEntities = r.stats.totalEntities + ids.length ∧
    (checkDuplicates t ids r).stats.duplicates =
      r.stats.duplicates + (dupFlagsIdx [] ids).length ∧
    (checkDuplicates t ids r).stats.brokenReferences = r.stats.brokenReferences ∧
    (checkDuplicates t ids r).stats.unusedEntities = r.stats.unusedEntities ∧
    (checkDuplicates t ids r).isValid = (r.isValid && (dupFlagsIdx [] ids).isEmpty) := by
  obtain ⟨h1, h2, h3, h4, h5, h6, h7⟩ := dupLoop_spec t ids [] r
  unfold checkDuplicates
  exact ⟨h1, h2, by simpa using h3, h4, h5, h6, h7⟩

theorem validateRef_spec (techIds moduleIds : List String) (ig : Integration)
    (refId fieldName : String) (r : DataQualityReport) :
    (validateRef techIds moduleIds ig refId fieldName r).errors =
      r.errors ++ (if integrationRefBad techIds moduleIds refId
        then [mkIntegrationRefError ig fieldName refId] else []) ∧
    (validateRef techIds moduleIds ig refId fieldName r).warnings = r.warnings ∧
    (validateRef techIds moduleIds ig refId fieldName r).stats.totalEntities =
      r.stats.totalEntities ∧
    (validateRef techIds moduleIds ig refId fieldName r).stats.duplicates =
      r.stats.duplicates ∧
    (validateRef techIds moduleIds ig refId fieldName r).stats.brokenReferences =
      r.stats.brokenReferences + (if integrationRefBad techIds moduleIds refId
        then [mkIntegrationRefError ig fieldName refId] else []).length ∧
    (validateRef techIds moduleIds ig refId fieldName r).stats.unusedEntities =
      r.stats.unusedEntities ∧
    (validateRef techIds moduleIds ig refId fieldName r).isValid =
      (r.isValid && (if integrationRefBad techIds moduleIds refId
        then [mkIntegrationRefError ig fieldName refId] else []).isEmpty) := by
  by_cases h : refId ≠ "system" ∧ refId ∉ techIds ∧ refId ∉ moduleIds
  · have hb : integrationRefBad techIds moduleIds refId = true := by
      simp [integrationRefBad, h.1, h.2.1, h.2.2]
    refine ⟨?_, ?_, ?_, ?_, ?_, ?_, ?_⟩ <;> simp [validateRef, if_pos h, hb]
  · have hb : integrationRefBad techIds moduleIds refId = false := by
      simp only [integrationRefBad, decide_eq_false_iff_not]
      exact h
    refine ⟨?_, ?_, ?_, ?_, ?_, ?_, ?_⟩ <;> simp [validateRef, if_neg h, hb]

theorem checkProjectRefs_spec (companyIds techIds moduleIds : List String)
    (p : DataProject) (r : DataQualityReport) :
    (checkProjectRefs companyIds techIds moduleIds p r).errors =
      r.errors ++ projErrorsOf companyIds techIds moduleIds p ∧
    (checkProjectRefs companyIds techIds moduleIds p r).warnings = r.warnings ∧
    (checkProjectRefs companyIds techIds moduleIds p r).stats.totalEntities =
      r.stats.totalEntities ∧
    (checkProjectRefs companyIds techIds moduleIds p r).stats.duplicates =
      r.stats.duplicates ∧
    (checkProjectRefs companyIds techIds moduleIds p r).stats.brokenReferences =
      r.stats.brokenReferences + (projErrorsOf companyIds techIds moduleIds p).length ∧
    (checkProjectRefs companyIds techIds moduleIds p r).stats.unusedEntities =
      r.stats.unusedEntities ∧
    (checkProjectRefs companyIds techIds moduleIds p r).isValid =
      (r.isValid && (projErrorsOf companyIds techIds moduleIds p).isEmpty) := by
  obtain ⟨a1, a2, a3, a4, a5, a6, a7⟩ := refLoop_spec companyIds (mkPartnerError p) p.partners r
  obtain ⟨b1, b2, b3, b4, b5, b6, b7⟩ := refLoop_spec techIds (mkTechRefError p) p.technologies
    (refLoop companyIds (mkPartnerError p) p.partners r)
  obtain ⟨c1, c2, c3, c4, c5, c6, c7⟩ := refLoop_spec moduleIds (mkModuleRefError p) p.modules
    (refLoop techIds (mkTechRefError p) p.technologies
      (refLoop companyIds (mkPartnerError p) p.partners r))
  simp only [checkProjectRefs]
  refine ⟨?_, ?_, ?_, ?_, ?_, ?_, ?_⟩
  · rw [c1, b1, a1]; simp [projErrorsOf]
  · rw [c2, b2, a2]
  · rw [c3, b3, a3]
  · rw [c4, b4, a4]
  · rw [c5, b5, a5]; simp [projErrorsOf]; omega
  · rw [c6, b6, a6]
  · rw [c7, b7, a7]; simp [projErrorsOf, isEmpty_append, isEmpty_map, Bool.and_assoc]

theorem checkIntegrationRefs_spec (techIds moduleIds projectIds : List String)
    (ig : Integration) (r : DataQualityReport) :
    (checkIntegrationRefs techIds moduleIds projectIds ig r).errors =
      r.errors ++ integErrorsOf techIds moduleIds projectIds ig ∧
    (checkIntegrationRefs techIds moduleIds projectIds ig r).warnings = r.warnings ∧
    (checkIntegrationRefs techIds moduleIds projectIds ig r).stats.totalEntities =
      r.stats.totalEntities ∧
    (checkIntegrationRefs techIds moduleIds projectIds ig r).stats.duplicates =
      r.stats.duplicates ∧
    (checkIntegrationRefs techIds moduleIds projectIds ig r).stats.brokenReferences =
      r.stats.brokenReferences + (integErrorsOf techIds moduleIds projectIds ig).length ∧
    (checkIntegrationRefs techIds moduleIds projectIds ig r).stats.unusedEntities =
      r.stats.unusedEntities ∧
    (checkIntegrationRefs techIds moduleIds projectIds ig r).isValid =
      (r.isValid && (integErrorsOf techIds moduleIds projectIds ig).isEmpty) := by
  obtain ⟨a1, a2, a3, a4, a5, a6, a7⟩ :=
    validateRef_spec techIds moduleIds ig ig.source "source" r
  obtain ⟨b1, b2, b3, b4, b5, b6, b7⟩ :=
    validateRef_spec techIds moduleIds ig ig.target "target"
      (validateRef techIds moduleIds ig ig.source "source" r)
  obtain ⟨c1, c2, c3, c4, c5, c6, c7⟩ :=
    refLoop_spec projectIds (mkIntegrationProjectError ig) ig.projects
      (validateRef techIds moduleIds ig ig.target "target"
        (validateRef techIds moduleIds ig ig.source "source" r))
  simp only [checkIntegrationRefs]
  refine ⟨?_, ?_, ?_, ?_, ?_, ?_, ?_⟩
  · rw [c1, b1, a1]; simp [integErrorsOf]
  · rw [c2, b2, a2]
  · rw [c3, b3, a3]
  · rw [c4, b4, a4]
  · rw [c5, b5, a5]; simp [integErrorsOf]; omega
  · rw [c6, b6, a6]
  · rw [c7, b7, a7]; simp [integErrorsOf, isEmpty_append, isEmpty_map, Bool.and_assoc]

theorem projectsRefLoop_spec (companyIds techIds moduleIds : List String) :
    ∀ (ps : List DataProject) (r : DataQualityReport),
    (projectsRefLoop companyIds techIds moduleIds ps r).errors =
      r.errors ++ (ps.map (projErrorsOf companyIds techIds moduleIds)).flatten ∧
    (projectsRefLoop companyIds techIds moduleIds ps r).warnings = r.warnings ∧
    (projectsRefLoop companyIds techIds moduleIds ps r).stats.totalEntities =
      r.stats.totalEntities ∧
    (projectsRefLoop companyIds techIds moduleIds ps r).stats.duplicates =
      r.stats.duplicates ∧
    (projectsRefLoop companyIds techIds moduleIds ps r).stats.brokenReferences =
      r.stats.brokenReferences +
        ((ps.map (projErrorsOf companyIds techIds moduleIds)).flatten).length ∧
    (projectsRefLoop companyIds techIds moduleIds ps r).stats.unusedEntities =
      r.stats.unusedEntities ∧
    (projectsRefLoop companyIds techIds moduleIds ps r).isValid =
      (r.isValid && ((ps.map (projErrorsOf companyIds techIds moduleIds)).flatten).isEmpty) := by
  intro ps
  induction ps with
  | nil => intro r; simp [projectsRefLoop]
  | cons p ps ih =>
    intro r
    obtain ⟨a1, a2, a3, a4, a5, a6, a7⟩ :=
      checkProjectRefs_spec companyIds techIds moduleIds p r
    obtain ⟨h1, h2, h3, h4, h5, h6, h7⟩ :=
      ih (checkProjectRefs companyIds techIds moduleIds p r)
    simp only [projectsRefLoop]
    refine ⟨?_, ?_, ?_, ?_, ?_, ?_, ?_⟩ <;>
      simp [h1, h2, h3, h4, h5, h6, h7, a1, a2, a3, a4, a5, a6, a7,
        isEmpty_append, Bool.and_assoc] <;> omega

theorem integrationsRefLoop_spec (techIds moduleIds projectIds : List String) :
    ∀ (igs : List Integration) (r : DataQualityReport),
    (integrationsRefLoop techIds moduleIds projectIds igs r).errors =
      r.errors ++ (igs.map (integErrorsOf techIds moduleIds projectIds)).flatten ∧
    (integrationsRefLoop techIds moduleIds projectIds igs r).warnings = r.warnings ∧
    (integrationsRefLoop techIds moduleIds projectIds igs r).stats.totalEntities =
      r.stats.totalEntities ∧
    (integrationsRefLoop techIds moduleIds projectIds igs r).stats.duplicates =
      r.stats.duplicates ∧
    (integrationsRefLoop techIds moduleIds projectIds igs r).stats.brokenReferences =
      r.stats.brokenReferences +
        ((igs.map (integErrorsOf techIds moduleIds projectIds)).flatten).length ∧
    (integrationsRefLoop techIds moduleIds projectIds igs r).stats.unusedEntities =
      r.stats.unusedEntities ∧
    (integrationsRefLoop techIds moduleIds projectIds igs r).isValid =
      (r.isValid && ((igs.map (integErrorsOf techIds moduleIds projectIds)).flatten).isEmpty) := by
  intro igs
  induction igs with
  | nil => intro r; simp [integrationsRefLoop]
  | cons ig igs ih =>
    intro r
    obtain ⟨a1, a2, a3, a4, a5, a6, a7⟩ :=
      checkIntegrationRefs_spec techIds moduleIds projectIds ig r
    obtain ⟨h1, h2, h3, h4, h5, h6, h7⟩ :=
      ih (checkIntegrationRefs techIds moduleIds projectIds ig r)
    simp only [integrationsRefLoop]
    refine ⟨?_, ?_, ?_, ?_, ?_, ?_, ?_⟩ <;>
      simp [h1, h2, h3, h4, h5, h6, h7, a1, a2, a3, a4, a5, a6, a7,
        isEmpty_append, Bool.and_assoc] <;> omega

theorem dupPass_spec (d : PortfolioData) (r : DataQualityReport) :
    (dupPass d r).errors = r.errors ++ dupErrorsOf d ∧
    (dupPass d r).warnings = r.warnings ∧
    (dupPass d r).stats.totalEntities = r.stats.totalEntities +
      ((companyIdsOf d).length + (techIdsOf d).length + (moduleIdsOf d).length +
        (projectIdsOf d).length + (integrationIdsOf d).length) ∧
    (dupPass d r).stats.duplicates = r.stats.duplicates + (dupErrorsOf d).length ∧
    (dupPass d r).stats.brokenReferences = r.stats.brokenReferences ∧
    (dupPass d r).stats.unusedEntities = r.stats.unusedEntities ∧
    (dupPass d r).isValid = (r.isValid && (dupErrorsOf d).isEmpty) := by
  obtain ⟨a1, a2, a3, a4, a5, a6, a7⟩ := checkDuplicates_spec "companies" (companyIdsOf d) r
  obtain ⟨b1, b2, b3, b4, b5, b6, b7⟩ := checkDuplicates_spec "technologies" (techIdsOf d)
    (checkDuplicates "companies" (companyIdsOf d) r)
  obtain ⟨c1, c2, c3, c4, c5, c6, c7⟩ := checkDuplicates_spec "modules" (moduleIdsOf d)
    (checkDuplicates "technologies" (techIdsOf d)
      (checkDuplicates "companies" (companyIdsOf d) r))
  obtain ⟨d1, d2, d3, d4, d5, d6, d7⟩ := checkDuplicates_spec "projects" (projectIdsOf d)
    (checkDuplicates "modules" (moduleIdsOf d)
      (checkDuplicates "technologies" (techIdsOf d)
        (checkDuplicates "companies" (companyIdsOf d) r)))
  obtain ⟨e1, e2, e3, e4, e5, e6, e7⟩ := checkDuplicates_spec "integrations" (integrationIdsOf d)
    (checkDuplicates "projects" (projectIdsOf d)
      (checkDuplicates "modules" (moduleIdsOf d)
        (checkDuplicates "technologies" (techIdsOf d)
          (checkDuplicates "companies" (companyIdsOf d) r))))
  simp only [dupPass]
  refine ⟨?_, ?_, ?_, ?_, ?_, ?_, ?_⟩
  · rw [e1, d1, c1, b1, a1]; simp [dupErrorsOf, snapshotCollections]
  · rw [e2, d2, c2, b2, a2]
  · rw [e3, d3, c3, b3, a3]; omega
  · rw [e4, d4, c4, b4, a4]; simp [dupErrorsOf, snapshotCollections]; omega
  · rw [e5, d5, c5, b5, a5]
  · rw [e6, d6, c6, b6, a6]
  · rw [e7, d7, c7, b7, a7]
    simp [dupErrorsOf, snapshotCollections, isEmpty_append, isEmpty_map, Bool.and_assoc]

theorem refPass_spec (d : PortfolioData) (r : DataQualityReport) :
    (refPass d r).errors = r.errors ++ refErrorsOf d ∧
    (refPass d r).warnings = r.warnings ∧
    (refPass d r).stats.totalEntities = r.stats.totalEntities ∧
    (refPass d r).stats.duplicates = r.stats.duplicates ∧
    (refPass d r).stats.brokenReferences = r.stats.brokenReferences + (refErrorsOf d).length ∧
    (refPass d r).stats.unusedEntities = r.stats.unusedEntities ∧
    (refPass d r).isValid = (r.isValid && (refErrorsOf d).isEmpty) := by
  obtain ⟨a1, a2, a3, a4, a5, a6, a7⟩ :=
    projectsRefLoop_spec (companyIdsOf d) (techIdsOf d) (moduleIdsOf d) d.projects r
  obtain ⟨b1, b2, b3, b4, b5, b6, b7⟩ :=
    integrationsRefLoop_spec (techIdsOf d) (moduleIdsOf d) (projectIdsOf d) d.integrations
      (projectsRefLoop (companyIdsOf d) (techIdsOf d) (moduleIdsOf d) d.projects r)
  simp only [refPass]
  refine ⟨?_, ?_, ?_, ?_, ?_, ?_, ?_⟩
  · rw [b1, a1]; simp [refErrorsOf]
  · rw [b2, a2]
  · rw [b3, a3]
  · rw [b4, a4]
  · rw [b5, a5]; simp [refErrorsOf]; omega
  · rw [b6, a6]
  · rw [b7, a7]; simp [refErrorsOf, isEmpty_append, Bool.and_assoc]

theorem unusedPass_spec (d : PortfolioData) (r : DataQualityReport) :
    (unusedPass d r).errors = r.errors ∧
    (unusedPass d r).warnings = r.warnings ++ unusedWarningsOf d ∧
    (unusedPass d r).stats.totalEntities = r.stats.totalEntities ∧
    (unusedPass d r).stats.duplicates = r.stats.duplicates ∧
    (unusedPass d r).stats.brokenReferences = r.stats.brokenReferences ∧
    (unusedPass d r).stats.unusedEntities =
      r.stats.unusedEntities + (unusedWarningsOf d).length ∧
    (unusedPass d r).isValid = r.isValid := by
  obtain ⟨a1, a2, a3, a4, a5, a6, a7⟩ :=
    unusedLoop_spec (fun t => decide (t.id ∉ usedTechIdsOf d))
      mkUnusedTechWarning d.entities.technologies r
  obtain ⟨b1, b2, b3, b4, b5, b6, b7⟩ :=
    unusedLoop_spec (fun m => decide (m.id ∉ usedModuleIdsOf d))
      mkUnusedModuleWarning d.entities.modules
      (unusedLoop (fun t => decide (t.id ∉ usedTechIdsOf d))
        mkUnusedTechWarning d.entities.technologies r)
  obtain ⟨c1, c2, c3, c4, c5, c6, c7⟩ :=
    unusedLoop_spec (fun c => decide (c.status = CompanyStatus.active ∧ c.id ∉ usedCompanyIdsOf d))
      mkUnusedCompanyWarning d.entities.companies
      (unusedLoop (fun m => decide (m.id ∉ usedModuleIdsOf d))
        mkUnusedModuleWarning d.entities.modules
        (unusedLoop (fun t => decide (t.id ∉ usedTechIdsOf d))
          mkUnusedTechWarning d.entities.technologies r))
  simp only [unusedPass]
  refine ⟨?_, ?_, ?_, ?_, ?_, ?_, ?_⟩
  · rw [c1, b1, a1]
  · rw [c2, b2, a2]; simp [unusedWarningsOf]
  · rw [c3, b3, a3]
  · rw [c4, b4, a4]
  · rw [c5, b5, a5]
  · rw [c6, b6, a6]; simp [unusedWarningsOf]; omega
  · rw [c7, b7, a7]

/-- The report produced by `validateDataQuality`, componentwise. -/
theorem validateDataQuality_spec (d : PortfolioData) :
    (validateDataQuality d).errors = dupErrorsOf d ++ refErrorsOf d ∧
    (validateDataQuality d).warnings = unusedWarningsOf d ∧
    (validateDataQuality d).stats.totalEntities =
      (companyIdsOf d).length + (techIdsOf d).length + (moduleIdsOf d).length +
        (projectIdsOf d).length + (integrationIdsOf d).length ∧
    (validateDataQuality d).stats.duplicates = (dupErrorsOf d).length ∧
    (validateDataQuality d).stats.brokenReferences = (refErrorsOf d).length ∧
    (validateDataQuality d).stats.unusedEntities = (unusedWarningsOf d).length ∧
    (validateDataQuality d).isValid = (dupErrorsOf d ++ refErrorsOf d).isEmpty := by
  obtain ⟨a1, a2, a3, a4, a5, a6, a7⟩ := dupPass_spec d emptyReport
  obtain ⟨b1, b2, b3, b4, b5, b6, b7⟩ := refPass_spec d (dupPass d emptyReport)
  obtain ⟨c1, c2, c3, c4, c5, c6, c7⟩ := unusedPass_spec d (refPass d (dupPass d emptyReport))
  have h : validateDataQuality d = unusedPass d (refPass d (dupPass d emptyReport)) := rfl
  rw [h]
  refine ⟨?_, ?_, ?_, ?_, ?_, ?_, ?_⟩
  · rw [c1, b1, a1]; simp [emptyReport]
  · rw [c2, b2, a2]; simp [emptyReport]
  · rw [c3, b3, a3]; simp [emptyReport]
  · rw [c4, b4, a4]; simp [emptyReport]
  · rw [c5, b5, a5]; simp [emptyReport]
  · rw [c6, b6, a6]; simp [emptyReport]
  · rw [c7, b7, a7]; simp [emptyReport, isEmpty_append]

/-! ## Counting lemmas for the duplicate scan and the deduplicator -/

theorem count_snd_dupFlagsIdx (x : String) : ∀ (l seen : List String),
    ((dupFlagsIdx seen l).map Prod.snd).count x =
      if x ∈ seen then l.count x else l.count x - 1 := by
  intro l
  induction l with
  | nil => intro seen; simp [dupFlagsIdx]
  | cons a l ih =>
    intro seen
    by_cases h : a ∈ seen
    · by_cases hax : a = x
      · have hx : x ∈ seen := hax ▸ h
        simp [dupFlagsIdx, h, hx, hax, List.count_cons]
        simp [ih (x :: seen)]
      · by_cases hx : x ∈ seen
        · simp [dupFlagsIdx, h, hx, hax, List.count_cons, ih (a :: seen), Ne.symm hax]
        · have hx2 : x ∉ a :: seen := by simp [Ne.symm hax, hx]
          simp [dupFlagsIdx, h, hx, hax, List.count_cons, ih (a :: seen), hx2, Ne.symm hax]
    · by_cases hax : a = x
      · have hx : x ∉ seen := hax ▸ h
        simp [dupFlagsIdx, h, hx, hax, List.count_cons]
        simp [ih (x :: seen)]
      · by_cases hx : x ∈ seen
        · have hx2 : x ∈ a :: seen := List.mem_cons_of_mem _ hx
          simp [dupFlagsIdx, h, hx, hax, List.count_cons, ih (a :: seen), hx2, Ne.symm hax]
        · have hx2 : x ∉ a :: seen := by simp [Ne.symm hax, hx]
          simp [dupFlagsIdx, h, hx, hax, List.count_cons, ih (a :: seen), hx2, Ne.symm hax]

theorem mem_dupFlagsIdx : ∀ (l seen : List String) (j : Nat) (x : String),
    (j, x) ∈ dupFlagsIdx seen l →
      seen.length ≤ j ∧ x ∈ seen ++ l.take (j - seen.length) := by
  intro l
  induction l with
  | nil => intro seen j x h; simp [dupFlagsIdx] at h
  | cons a l ih =>
    intro seen j x h
    simp only [dupFlagsIdx] at h
    rcases List.mem_append.1 h with h1 | h2
    · by_cases ha : a ∈ seen
      · simp [ha] at h1
        obtain ⟨hj, hx⟩ := h1
        subst hj; subst hx
        exact ⟨le_refl _, by simp [ha]⟩
      · simp [ha] at h1
    · obtain ⟨hle, hmem⟩ := ih (a :: seen) j x h2
      simp only [List.length_cons] at hle hmem
      refine ⟨by omega, ?_⟩
      obtain ⟨k, hk⟩ : ∃ k, j - seen.length = k + 1 := ⟨j - seen.length - 1, by omega⟩
      have htake : (a :: l).take (j - seen.length) = a :: l.take k := by
        rw [hk, List.take_succ_cons]
      have hk2 : j - (seen.length + 1) = k := by omega
      rw [hk2] at hmem
      rw [htake]
      simp only [List.mem_append, List.mem_cons] at hmem ⊢
      tauto

/-- The first occurrence of an id is never flagged: a flagged pair at
position `j` always has an equal id strictly earlier in the list. -/
theorem firstOccurrence_not_flagged (l : List String) (j : Nat) (x : String)
    (hx : x ∉ l.take j) : (j, x) ∉ dupFlagsIdx [] l := by
  intro hmem
  have h := (mem_dupFlagsIdx l [] j x hmem).2
  simp at h
  exact hx h

theorem dedupLoop_congr {α : Type} (getId : α → String) : ∀ (l : List α) (s₁ s₂ : List String),
    (∀ x, x ∈ s₁ ↔ x ∈ s₂) → dedupLoop getId s₁ l = dedupLoop getId s₂ l := by
  intro l
  induction l with
  | nil => intro s₁ s₂ hs; simp [dedupLoop]
  | cons e l ih =>
    intro s₁ s₂ hs
    by_cases h : getId e ∈ s₁
    · have h2 : getId e ∈ s₂ := (hs _).1 h
      simp [dedupLoop, h, h2, ih s₁ s₂ hs]
    · have h2 : getId e ∉ s₂ := fun hc => h ((hs _).2 hc)
      simp only [dedupLoop, if_neg h, if_neg h2]
      rw [ih (getId e :: s₁) (getId e :: s₂) (by intro x; simp [hs x])]

theorem mem_dedupLoop {α : Type} (getId : α → String) : ∀ (l : List α) (seen : List String) (e : α),
    e ∈ dedupLoop getId seen l → e ∈ l ∧ getId e ∉ seen := by
  intro l
  induction l with
  | nil => intro seen e h; simp [dedupLoop] at h
  | cons a l ih =>
    intro seen e h
    by_cases ha : getId a ∈ seen
    · simp only [dedupLoop, if_pos ha] at h
      obtain ⟨h1, h2⟩ := ih seen e h
      exact ⟨List.mem_cons_of_mem _ h1, h2⟩
    · simp only [dedupLoop, if_neg ha, List.mem_cons] at h
      rcases h with rfl | h
      · exact ⟨List.mem_cons_self _ _, ha⟩
      · obtain ⟨h1, h2⟩ := ih (getId a :: seen) e h
        refine ⟨List.mem_cons_of_mem _ h1, fun hc => h2 (List.mem_cons_of_mem _ hc)⟩

theorem nodup_map_dedupLoop {α : Type} (getId : α → String) : ∀ (l : List α) (seen : List String),
    ((dedupLoop getId seen l).map getId).Nodup := by
  intro l
  induction l with
  | nil => intro seen; simp [dedupLoop]
  | cons a l ih =>
    intro seen
    by_cases ha : getId a ∈ seen
    · simp only [dedupLoop, if_pos ha]; exact ih seen
    · simp only [dedupLoop, if_neg ha, List.map_cons, List.nodup_cons]
      refine ⟨?_, ih (getId a :: seen)⟩
      intro hc
      obtain ⟨e, he, heq⟩ := List.mem_map.1 hc
      have := (mem_dedupLoop getId l (getId a :: seen) e he).2
      exact this (heq ▸ List.mem_cons_self _ _)

theorem dedupLoop_eq_self {α : Type} (getId : α → String) : ∀ (l : List α) (seen : List String),
    (l.map getId).Nodup → (∀ e ∈ l, getId e ∉ seen) → dedupLoop getId seen l = l := by
  intro l
  induction l with
  | nil => intro seen _ _; simp [dedupLoop]
  | cons a l ih =>
    intro seen hnd hs
    have ha : getId a ∉ seen := hs a (List.mem_cons_self _ _)
    simp only [dedupLoop, if_neg ha]
    simp only [List.map_cons, List.nodup_cons] at hnd
    congr 1
    refine ih (getId a :: seen) hnd.2 ?_
    intro e he
    simp only [List.mem_cons]
    push_neg
    refine ⟨?_, hs e (List.mem_cons_of_mem _ he)⟩
    intro hc
    exact hnd.1 (hc ▸ List.mem_map_of_mem getId he)

theorem length_dupFlagsIdx_add_dedupLoop : ∀ (l seen : List String),
    (dupFlagsIdx seen l).length + (dedupLoop (fun x => x) seen l).length = l.length := by
  intro l
  induction l with
  | nil => intro seen; simp [dupFlagsIdx, dedupLoop]
  | cons a l ih =>
    intro seen
    by_cases h : a ∈ seen
    · have hc : dedupLoop (fun x => x) seen l = dedupLoop (fun x => x) (a :: seen) l := by
        refine dedupLoop_congr _ l seen (a :: seen) ?_
        intro x
        constructor
        · exact fun hx => List.mem_cons_of_mem _ hx
        · intro hx
          rcases List.mem_cons.1 hx with rfl | hx
          · exact h
          · exact hx
      simp only [dupFlagsIdx, dedupLoop, if_pos h, hc]
      have h2 := ih (a :: seen)
      simp at h2 ⊢
      omega
    · simp only [dupFlagsIdx, dedupLoop, if_neg h]
      have h2 := ih (a :: seen)
      simp at h2 ⊢
      omega

theorem length_le_sum_map {α : Type} (f : α → Nat) : ∀ (m : List α),
    (∀ x ∈ m, 1 ≤ f x) → m.length ≤ (m.map f).sum := by
  intro m
  induction m with
  | nil => intro _; simp
  | cons a m ih =>
    intro h
    have ha := h a (List.mem_cons_self _ _)
    have hm := ih (fun x hx => h x (List.mem_cons_of_mem _ hx))
    simp only [List.length_cons, List.map_cons, List.sum_cons]
    omega

theorem sum_map_sub_one {α : Type} (f : α → Nat) : ∀ (m : List α),
    (∀ x ∈ m, 1 ≤ f x) →
    (m.map (fun x => f x - 1)).sum = (m.map f).sum - m.length := by
  intro m
  induction m with
  | nil => intro _; simp
  | cons a m ih =>
    intro h
    have ha := h a (List.mem_cons_self _ _)
    have hm := ih (fun x hx => h x (List.mem_cons_of_mem _ hx))
    have hb := length_le_sum_map f m (fun x hx => h x (List.mem_cons_of_mem _ hx))
    simp only [List.map_cons, List.sum_cons, List.length_cons]
    omega

theorem mem_dedupLoop_complete : ∀ (l seen : List String) (x : String),
    x ∈ l → x ∉ seen → x ∈ dedupLoop (fun y => y) seen l := by
  intro l
  induction l with
  | nil => intro seen x hx _; simp at hx
  | cons a t ih =>
    intro seen x hx hs
    rcases List.mem_cons.1 hx with rfl | hx
    · simp only [dedupLoop, if_neg hs]
      exact List.mem_cons_self _ _
    · by_cases ha : a ∈ seen
      · simp only [dedupLoop, if_pos ha]
        exact ih seen x hx hs
      · simp only [dedupLoop, if_neg ha]
        by_cases hxa : x = a
        · exact hxa ▸ List.mem_cons_self _ _
        · refine List.mem_cons_of_mem _ (ih (a :: seen) x hx ?_)
          simp [hxa, hs]

theorem sum_count_dedupLoop_id (l : List String) :
    ((dedupLoop (fun x => x) [] l).map (fun x => l.count x)).sum = l.length := by
  have hnd : (dedupLoop (fun x => x) [] l).Nodup := by
    have h := nodup_map_dedupLoop (fun x => x) l []
    simpa using h
  have hperm : List.Perm (dedupLoop (fun x => x) [] l) l.dedup := by
    rw [List.perm_ext_iff_of_nodup hnd (List.nodup_dedup l)]
    intro x
    constructor
    · intro hx
      exact List.mem_dedup.2 ((mem_dedupLoop (fun y => y) l [] x hx).1)
    · intro hx
      exact mem_dedupLoop_complete l [] x (List.mem_dedup.1 hx) (by simp)
  have hsum := (hperm.map (fun x => l.count x)).sum_eq
  rw [hsum, List.sum_map_count_dedup_eq_length]

theorem extraOccurrences_eq (l : List String) :
    extraOccurrences l = l.length - (dedupLoop (fun x => x) [] l).length := by
  unfold extraOccurrences
  have hpos : ∀ x ∈ dedupLoop (fun y => y) [] l, 1 ≤ l.count x := by
    intro x hx
    have := (mem_dedupLoop (fun y => y) l [] x hx).1
    have := List.count_pos_iff.2 this
    omega
  rw [sum_map_sub_one _ _ hpos, sum_count_dedupLoop_id l]

/-- The number of flagged (duplicate) occurrences equals the number of
extra occurrences: an id appearing k times is flagged k - 1 times. -/
theorem length_dupFlagsIdx_eq_extras (l : List String) :
    (dupFlagsIdx [] l).length = extraOccurrences l := by
  have h1 := length_dupFlagsIdx_add_dedupLoop l []
  have h2 := extraOccurrences_eq l
  omega

/-! ## Classifying and filtering the error lists -/

theorem mem_dupErrorsOf_type (d : PortfolioData) :
    ∀ e ∈ dupErrorsOf d, e.type = ErrorType.duplicate := by
  intro e he
  simp only [dupErrorsOf, List.mem_flatten, List.mem_map] at he
  obtain ⟨blk, ⟨q, hq, rfl⟩, he⟩ := he
  obtain ⟨p, hp, rfl⟩ := List.mem_map.1 he
  rfl

theorem mem_projErrorsOf_type (cIds tIds mIds : List String) (p : DataProject) :
    ∀ e ∈ projErrorsOf cIds tIds mIds p, e.type = ErrorType.missing_reference := by
  intro e he
  simp only [projErrorsOf, List.mem_append, List.mem_map] at he
  rcases he with (⟨x, hx, rfl⟩ | ⟨x, hx, rfl⟩) | ⟨x, hx, rfl⟩ <;> rfl

theorem mem_integErrorsOf_type (tIds mIds pIds : List String) (ig : Integration) :
    ∀ e ∈ integErrorsOf tIds mIds pIds ig, e.type = ErrorType.missing_reference := by
  intro e he
  simp only [integErrorsOf, List.mem_append, List.mem_map] at he
  rcases he with (h1 | h2) | ⟨x, hx, rfl⟩
  · by_cases hb : integrationRefBad tIds mIds ig.source
    · simp [hb] at h1; subst h1; rfl
    · simp [hb] at h1
  · by_cases hb : integrationRefBad tIds mIds ig.target
    · simp [hb] at h2; subst h2; rfl
    · simp [hb] at h2
  · rfl

theorem mem_refErrorsOf_type (d : PortfolioData) :
    ∀ e ∈ refErrorsOf d, e.type = ErrorType.missing_reference := by
  intro e he
  simp only [refErrorsOf, List.mem_append, List.mem_flatten, List.mem_map] at he
  rcases he with ⟨blk, ⟨p, hp, rfl⟩, he⟩ | ⟨blk, ⟨ig, hig, rfl⟩, he⟩
  · exact mem_projErrorsOf_type _ _ _ p e he
  · exact mem_integErrorsOf_type _ _ _ ig e he

theorem filter_dupBlocks_notMem : ∀ (L : List (String × List String)) (c : String),
    c ∉ L.map Prod.fst →
    ((L.map (fun q => (dupFlagsIdx [] q.2).map (fun p => mkDupError q.1 p.2))).flatten).filter
      (fun e => decide (e.type = ErrorType.duplicate ∧ e.entity = c)) = [] := by
  intro L
  induction L with
  | nil => intro c _; simp
  | cons q L ih =>
    intro c hc
    simp only [List.map_cons, List.mem_cons, not_or] at hc
    obtain ⟨hc1, hc2⟩ := hc
    simp only [List.map_cons, List.flatten_cons, List.filter_append]
    have h1 : ((dupFlagsIdx [] q.2).map (fun p => mkDupError q.1 p.2)).filter
        (fun e => decide (e.type = ErrorType.duplicate ∧ e.entity = c)) = [] := by
      rw [List.filter_eq_nil_iff]
      intro e he
      obtain ⟨p, hp, rfl⟩ := List.mem_map.1 he
      simp [mkDupError, Ne.symm hc1]
    rw [h1, List.nil_append]
    exact ih c hc2

theorem filter_dupBlocks_mem : ∀ (L : List (String × List String)) (c : String) (ids : List String),
    (L.map Prod.fst).Nodup → (c, ids) ∈ L →
    ((L.map (fun q => (dupFlagsIdx [] q.2).map (fun p => mkDupError q.1 p.2))).flatten).filter
      (fun e => decide (e.type = ErrorType.duplicate ∧ e.entity = c)) =
      (dupFlagsIdx [] ids).map (fun p => mkDupError c p.2) := by
  intro L
  induction L with
  | nil => intro c ids _ h; simp at h
  | cons q L ih =>
    intro c ids hnd hmem
    simp only [List.map_cons, List.nodup_cons] at hnd
    obtain ⟨hq, hnd2⟩ := hnd
    rcases List.mem_cons.1 hmem with heq | hmem2
    · obtain rfl := heq.symm
      simp only [List.map_cons, List.flatten_cons, List.filter_append]
      have h1 : ((dupFlagsIdx [] ids).map (fun p => mkDupError c p.2)).filter
          (fun e => decide (e.type = ErrorType.duplicate ∧ e.entity = c)) =
          (dupFlagsIdx [] ids).map (fun p => mkDupError c p.2) := by
        rw [List.filter_eq_self]
        intro e he
        obtain ⟨p, hp, rfl⟩ := List.mem_map.1 he
        simp [mkDupError]
      have h2 := filter_dupBlocks_notMem L c hq
      rw [h1, h2, List.append_nil]
    · have hc : q.1 ≠ c := by
        intro h
        apply hq
        rw [h]
        exact List.mem_map_of_mem Prod.fst hmem2
      simp only [List.map_cons, List.flatten_cons, List.filter_append]
      have h1 : ((dupFlagsIdx [] q.2).map (fun p => mkDupError q.1 p.2)).filter
          (fun e => decide (e.type = ErrorType.duplicate ∧ e.entity = c)) = [] := by
        rw [List.filter_eq_nil_iff]
        intro e he
        obtain ⟨p, hp, rfl⟩ := List.mem_map.1 he
        simp [mkDupError, hc]
      rw [h1, List.nil_append]
      exact ih c ids hnd2 hmem2

theorem length_filter_value (c x : String) : ∀ (fl : List (Nat × String)),
    ((fl.map (fun p => mkDupError c p.2)).filter (fun e => decide (e.value = some x))).length =
      (fl.map Prod.snd).count x := by
  intro fl
  induction fl with
  | nil => simp
  | cons q fl ih =>
    have hd : decide ((mkDupError c q.2).value = some x) = decide (q.2 = x) := by
      simp [mkDupError]
    by_cases hqx : q.2 = x
    · subst hqx
      have hv : (mkDupError c q.2).value = some q.2 := rfl
      simp [List.filter_cons, List.count_cons, ih, hv]
    · simp [List.filter_cons, hd, hqx, List.count_cons, ih, Ne.symm hqx]

theorem filter_dup_value_split (c x : String) (l : List QualityError) :
    l.filter (fun e => decide (e.type = ErrorType.duplicate ∧ e.entity = c ∧ e.value = some x)) =
      (l.filter (fun e => decide (e.type = ErrorType.duplicate ∧ e.entity = c))).filter
        (fun e => decide (e.value = some x)) := by
  rw [List.filter_filter]
  apply List.filter_congr
  intro e _
  simp [Bool.and_comm, Bool.and_left_comm, Bool.and_assoc]

/-! ## Frequency-map lemmas (admin duplicate counting) -/

theorem findCount_bumpCount : ∀ (m : List (String × Nat)) (k k2 : String),
    findCount (bumpCount m k) k2 =
      if k2 = k then some ((findCount m k).getD 0 + 1) else findCount m k2 := by
  intro m
  induction m with
  | nil =>
    intro k k2
    by_cases h : k2 = k
    · subst h; simp [bumpCount, findCount]
    · simp [bumpCount, findCount, h, Ne.symm h]
  | cons q m ih =>
    intro k k2
    obtain ⟨k3, n⟩ := q
    by_cases h3 : k3 = k
    · subst h3
      by_cases h2 : k2 = k3
      · subst h2; simp [bumpCount, findCount]
      · simp [bumpCount, findCount, h2, Ne.symm h2]
    · by_cases h2 : k2 = k3
      · subst h2
        simp [bumpCount, findCount, h3]
      · simp [bumpCount, findCount, h3, h2, Ne.symm h2, ih k k2]

theorem keys_bumpCount : ∀ (m : List (String × Nat)) (k : String),
    (bumpCount m k).map Prod.fst =
      if k ∈ m.map Prod.fst then m.map Prod.fst else m.map Prod.fst ++ [k] := by
  intro m
  induction m with
  | nil => intro k; simp [bumpCount]
  | cons q m ih =>
    intro k
    obtain ⟨k3, n⟩ := q
    by_cases h3 : k3 = k
    · subst h3; simp [bumpCount]
    · simp only [bumpCount, if_neg h3, List.map_cons, ih k]
      by_cases hm : k ∈ m.map Prod.fst
      · have hm2 : k ∈ k3 :: m.map Prod.fst := List.mem_cons_of_mem _ hm
        simp [hm, hm2]
      · have hm2 : k ∉ k3 :: m.map Prod.fst := by
          simp only [List.mem_cons, not_or]
          exact ⟨fun hc => h3 hc.symm, hm⟩
        simp [hm, hm2]

theorem nodup_keys_bumpCount (m : List (String × Nat)) (k : String)
    (h : (m.map Prod.fst).Nodup) : ((bumpCount m k).map Prod.fst).Nodup := by
  rw [keys_bumpCount]
  by_cases hm : k ∈ m.map Prod.fst
  · simp [hm, h]
  · simp [hm, List.nodup_append, h]

theorem nodup_keys_freqLoop : ∀ (l : List String) (m : List (String × Nat)),
    (m.map Prod.fst).Nodup → ((freqLoop l m).map Prod.fst).Nodup := by
  intro l
  induction l with
  | nil => intro m h; exact h
  | cons t l ih =>
    intro m h
    exact ih (bumpCount m t) (nodup_keys_bumpCount m t h)

theorem findCount_freqLoop : ∀ (l : List String) (m : List (String × Nat)) (k : String),
    findCount (freqLoop l m) k =
      if k ∈ l then some ((findCount m k).getD 0 + l.count k) else findCount m k := by
  intro l
  induction l with
  | nil => intro m k; simp [freqLoop]
  | cons t l ih =>
    intro m k
    by_cases hkt : k = t
    · subst hkt
      simp only [freqLoop, ih (bumpCount m k), findCount_bumpCount, if_pos rfl, List.count_cons]
      by_cases hkl : k ∈ l
      · simp [hkl]
        omega
      · simp [hkl, List.count_eq_zero.2 hkl]
    · simp only [freqLoop, ih (bumpCount m t), findCount_bumpCount, List.count_cons]
      by_cases hkl : k ∈ l
      · simp [hkl, List.mem_cons, hkt, Ne.symm hkt]
      · simp [hkl, List.mem_cons, hkt, Ne.symm hkt]

theorem mem_assoc_iff_findCount : ∀ (m : List (String × Nat)),
    (m.map Prod.fst).Nodup → ∀ (k : String) (n : Nat),
    ((k, n) ∈ m ↔ findCount m k = some n) := by
  intro m
  induction m with
  | nil => intro _ k n; simp [findCount]
  | cons q m ih =>
    intro hnd k n
    obtain ⟨k3, n3⟩ := q
    simp only [List.map_cons, List.nodup_cons] at hnd
    obtain ⟨hk3, hnd2⟩ := hnd
    by_cases hk : k3 = k
    · subst hk
      simp only [findCount, if_pos rfl, List.mem_cons]
      constructor
      · rintro (h | h)
        · simp at h; simp [h]
        · exfalso
          exact hk3 (List.mem_map_of_mem Prod.fst h)
      · intro h
        simp at h
        left
        simp [h]
    · simp only [findCount, if_neg hk, List.mem_cons]
      rw [← ih hnd2 k n]
      constructor
      · rintro (h | h)
        · exfalso; simp at h; exact hk h.1.symm
        · exact h
      · intro h; right; exact h

theorem keys_freqLoop : ∀ (l : List String) (m : List (String × Nat)),
    (freqLoop l m).map Prod.fst =
      m.map Prod.fst ++ dedupLoop (fun x => x) (m.map Prod.fst) l := by
  intro l
  induction l with
  | nil => intro m; simp [freqLoop, dedupLoop]
  | cons t l ih =>
    intro m
    by_cases hm : t ∈ m.map Prod.fst
    · have hkeys : (bumpCount m t).map Prod.fst = m.map Prod.fst := by
        rw [keys_bumpCount]; simp [hm]
      simp only [freqLoop, dedupLoop, if_pos hm, ih (bumpCount m t), hkeys]
    · have hkeys : (bumpCount m t).map Prod.fst = m.map Prod.fst ++ [t] := by
        rw [keys_bumpCount]; simp [hm]
      have hcongr : dedupLoop (fun x => x) (m.map Prod.fst ++ [t]) l =
          dedupLoop (fun x => x) (t :: m.map Prod.fst) l := by
        refine dedupLoop_congr _ l _ _ ?_
        intro x
        simp [List.mem_append, List.mem_cons]
        tauto
      simp only [freqLoop, dedupLoop, if_neg hm, ih (bumpCount m t), hkeys, hcongr]
      simp [List.append_assoc]

/-! ## Identifier-schema lemmas -/

theorem toLowerChar_id_of_idCharOk (c : Char) (h : idCharOk c = true) :
    toLowerChar c = c := by
  have hn : ¬(65 ≤ c.toNat ∧ c.toNat ≤ 90) := by
    unfold idCharOk at h
    simp at h
    omega
  simp [toLowerChar, hn]

theorem notWhitespace_of_idCharOk (c : Char) (h : idCharOk c = true) :
    jsWhitespace c = false := by
  unfold idCharOk at h
  unfold jsWhitespace
  simp at h ⊢
  omega

theorem dropWhile_eq_self_of (l : List Char)
    (h : ∀ c ∈ l, jsWhitespace c = false) : l.dropWhile jsWhitespace = l := by
  cases l with
  | nil => rfl
  | cons a t =>
    have ha := h a (List.mem_cons_self _ _)
    simp [List.dropWhile_cons, ha]

theorem jsTrim_eq_self (l : List Char)
    (h : ∀ c ∈ l, jsWhitespace c = false) : jsTrim l = l := by
  unfold jsTrim
  rw [dropWhile_eq_self_of l h]
  rw [dropWhile_eq_self_of l.reverse (fun c hc => h c (List.mem_reverse.1 hc))]
  exact List.reverse_reverse l

theorem jsToLower_eq_self (l : List Char)
    (h : ∀ c ∈ l, idCharOk c = true) : jsToLower l = l := by
  unfold jsToLower
  have hm : l.map toLowerChar = l.map id :=
    List.map_congr_left (fun c hc => toLowerChar_id_of_idCharOk c (h c hc))
  rw [hm, List.map_id]

/-! ## Claim theorems -/

/-- Claim C3: for every snapshot, the report returned by
`validateDataQuality` satisfies `isValid = (errors.length == 0)`,
independent of warnings: `isValid` is exactly emptiness of the error list,
and unused-entity findings (warnings) never affect it. -/
theorem claim_validity_flag (d : PortfolioData) :
    (validateDataQuality d).isValid = (validateDataQuality d).errors.isEmpty ∧
    ((validateDataQuality d).isValid = true ↔ (validateDataQuality d).errors = []) := by
  obtain ⟨he, _, _, _, _, _, hv⟩ := validateDataQuality_spec d
  refine ⟨by rw [hv, he], ?_⟩
  rw [hv, he]
  cases h : dupErrorsOf d ++ refErrorsOf d <;> simp

/-- Claim C9: `stats.totalEntities` is the sum of the raw
(non-deduplicated) lengths of the five collections, accumulated in the
order companies, technologies, modules, projects, integrations; in
particular a snapshot whose only entities are two companies sharing one id
has `stats.totalEntities = 2`. -/
theorem claim_total_entities (d : PortfolioData) :
    (validateDataQuality d).stats.totalEntities =
      d.entities.companies.length + d.entities.technologies.length +
        d.entities.modules.length + d.projects.length + d.integrations.length ∧
    (validateDataQuality sampleDupSnapshot).stats.totalEntities = 2 := by
  obtain ⟨_, _, ht, _⟩ := validateDataQuality_spec d
  constructor
  · rw [ht]
    simp [companyIdsOf, techIdsOf, moduleIdsOf, projectIdsOf, integrationIdsOf]
  · obtain ⟨_, _, ht2, _⟩ := validateDataQuality_spec sampleDupSnapshot
    rw [ht2]
    rfl

/-- Claim C10: `optimizeData` is the identity: for every snapshot and
either value of the `removeUnused` flag it returns its input unchanged
(even the `removeUnused = true` branch only computes a report and an
unused-id set and then returns the input). -/
theorem claim_optimizeData_identity :
    ∀ (d : PortfolioData) (removeUnused : Bool), optimizeData d removeUnused = d := by
  intro d b
  cases b <;> rfl

/-- Claim C5: deduplication is idempotent:
`deduplicateData (deduplicateData s) = deduplicateData s` for every
snapshot `s`, where `deduplicateData` keeps the first occurrence of each
id per collection. -/
theorem claim_deduplicate_idempotent (d : PortfolioData) :
    deduplicateData (deduplicateData d) = deduplicateData d := by
  have hcomp : ∀ {α : Type} (getId : α → String) (l : List α),
      dedupLoop getId [] (dedupLoop getId [] l) = dedupLoop getId [] l := by
    intro α getId l
    refine dedupLoop_eq_self getId (dedupLoop getId [] l) []
      (nodup_map_dedupLoop getId l []) ?_
    intro e _
    simp
  simp [deduplicateData, hcomp]

/-- Claim C7: the admin `dataQualityScore` equals
`clamp(100 - duplicates*10 - brokenReferences*15 - unusedEntities*2, 0, 100)`
in exact integer arithmetic, and it depends only on the report's three
deduction stats. -/
theorem claim_quality_score (r : DataQualityReport) :
    dataQualityScore (some r) =
      clampInt (100 - (r.stats.duplicates : Int) * 10 -
        (r.stats.brokenReferences : Int) * 15 - (r.stats.unusedEntities : Int) * 2) 0 100 ∧
    (∀ r2 : DataQualityReport, r.stats.duplicates = r2.stats.duplicates →
      r.stats.brokenReferences = r2.stats.brokenReferences →
      r.stats.unusedEntities = r2.stats.unusedEntities →
      dataQualityScore (some r) = dataQualityScore (some r2)) := by
  constructor
  · rfl
  · intro r2 h1 h2 h3
    simp [dataQualityScore, h1, h2, h3]

theorem claim_quality_score_witness :
    dataQualityScore (some sampleReportA) = dataQualityScore (some sampleReportB) :=
  (claim_quality_score sampleReportA).2 sampleReportB rfl rfl rfl

/-- Claim C2: `validateDataQuality` emits exactly one missing-reference
error per broken reference instance — for each project, each
partner/technology/module id absent from the id set of the corresponding
raw collection; for each integration, `source` and `target` unless
"system" or a technology/module id, and each projects entry absent from
the project id set — and `stats.brokenReferences` counts exactly these
errors (`refErrorsOf` is that per-instance list). -/
theorem claim_reference_integrity (d : PortfolioData) :
    (validateDataQuality d).errors.filter
      (fun e => decide (e.type = ErrorType.missing_reference)) = refErrorsOf d ∧
    (validateDataQuality d).stats.brokenReferences = (refErrorsOf d).length ∧
    (validateDataQuality d).stats.brokenReferences =
      ((validateDataQuality d).errors.filter
        (fun e => decide (e.type = ErrorType.missing_reference))).length := by
  obtain ⟨he, _, _, _, hb, _, _⟩ := validateDataQuality_spec d
  have hfilter : (validateDataQuality d).errors.filter
      (fun e => decide (e.type = ErrorType.missing_reference)) = refErrorsOf d := by
    rw [he, List.filter_append]
    have h1 : (dupErrorsOf d).filter
        (fun e => decide (e.type = ErrorType.missing_reference)) = [] := by
      rw [List.filter_eq_nil_iff]
      intro e heM
      simp [mem_dupErrorsOf_type d e heM]
    have h2 : (refErrorsOf d).filter
        (fun e => decide (e.type = ErrorType.missing_reference)) = refErrorsOf d := by
      rw [List.filter_eq_self]
      intro e heM
      simp [mem_refErrorsOf_type d e heM]
    rw [h1, h2, List.nil_append]
  exact ⟨hfilter, hb, by rw [hfilter, hb]⟩

/-- Claim C4: `validateDataQuality` warns "unused_entity" about exactly
those company-collection entries whose status is active and whose id
occurs in no project's partners list; companies with status inactive or
mentioned are never flagged, regardless of the other companies. -/
theorem claim_unused_company (d : PortfolioData) :
    (validateDataQuality d).warnings.filter (fun w => decide (w.entity = "companies")) =
      (d.entities.companies.filter
        (fun c => decide (c.status = CompanyStatus.active ∧ c.id ∉ usedCompanyIdsOf d))).map
        mkUnusedCompanyWarning ∧
    (∀ w, w ∈ (validateDataQuality d).warnings.filter
        (fun w => decide (w.entity = "companies")) ↔
      ∃ c, c ∈ d.entities.companies ∧ c.status = CompanyStatus.active ∧
        c.id ∉ usedCompanyIdsOf d ∧ w = mkUnusedCompanyWarning c) := by
  obtain ⟨_, hw, _⟩ := validateDataQuality_spec d
  have hfilter : (validateDataQuality d).warnings.filter
      (fun w => decide (w.entity = "companies")) =
      (d.entities.companies.filter
        (fun c => decide (c.status = CompanyStatus.active ∧ c.id ∉ usedCompanyIdsOf d))).map
        mkUnusedCompanyWarning := by
    rw [hw]
    simp only [unusedWarningsOf, List.filter_append]
    have h1 : ((d.entities.technologies.filter
        (fun t => decide (t.id ∉ usedTechIdsOf d))).map mkUnusedTechWarning).filter
        (fun w => decide (w.entity = "companies")) = [] := by
      rw [List.filter_eq_nil_iff]
      intro w hwM
      obtain ⟨t, ht, rfl⟩ := List.mem_map.1 hwM
      simp [mkUnusedTechWarning]
    have h2 : ((d.entities.modules.filter
        (fun m => decide (m.id ∉ usedModuleIdsOf d))).map mkUnusedModuleWarning).filter
        (fun w => decide (w.entity = "companies")) = [] := by
      rw [List.filter_eq_nil_iff]
      intro w hwM
      obtain ⟨m, hm, rfl⟩ := List.mem_map.1 hwM
      simp [mkUnusedModuleWarning]
    have h3 : ((d.entities.companies.filter
        (fun c => decide (c.status = CompanyStatus.active ∧ c.id ∉ usedCompanyIdsOf d))).map
        mkUnusedCompanyWarning).filter (fun w => decide (w.entity = "companies")) =
        (d.entities.companies.filter
          (fun c => decide (c.status = CompanyStatus.active ∧ c.id ∉ usedCompanyIdsOf d))).map
          mkUnusedCompanyWarning := by
      rw [List.filter_eq_self]
      intro w hwM
      obtain ⟨c, hc, rfl⟩ := List.mem_map.1 hwM
      simp [mkUnusedCompanyWarning]
    rw [h1, h2, h3, List.nil_append, List.nil_append]
  refine ⟨hfilter, ?_⟩
  intro w
  rw [hfilter]
  constructor
  · intro hwM
    obtain ⟨c, hc, rfl⟩ := List.mem_map.1 hwM
    obtain ⟨hcm, hcp⟩ := List.mem_filter.1 hc
    simp only [decide_eq_true_eq] at hcp
    exact ⟨c, hcm, hcp.1, hcp.2, rfl⟩
  · rintro ⟨c, hcm, hact, huse, rfl⟩
    refine List.mem_map_of_mem _ (List.mem_filter.2 ⟨hcm, ?_⟩)
    simp [hact, huse]

/-- Claim C1: duplicate detection: in each of the five collections
independently, an id occurring k ≥ 1 times produces exactly k - 1
duplicate errors naming that collection and id, the first occurrence is
never flagged (every flagged position has an equal id strictly earlier),
and `stats.duplicates` is the total number of extra occurrences across
all five collections. -/
theorem claim_duplicate_detection (d : PortfolioData) :
    (∀ c ids, (c, ids) ∈ snapshotCollections d →
      ((validateDataQuality d).errors.filter
          (fun e => decide (e.type = ErrorType.duplicate ∧ e.entity = c))) =
        (dupFlagsIdx [] ids).map (fun p => mkDupError c p.2) ∧
      (∀ x k, ids.count x = k → 1 ≤ k →
        ((validateDataQuality d).errors.filter
            (fun e => decide (e.type = ErrorType.duplicate ∧ e.entity = c ∧
              e.value = some x))).length = k - 1) ∧
      (∀ j x, ids[j]? = some x → x ∉ ids.take j → (j, x) ∉ dupFlagsIdx [] ids)) ∧
    (validateDataQuality d).stats.duplicates =
      extraOccurrences (companyIdsOf d) + extraOccurrences (techIdsOf d) +
        extraOccurrences (moduleIdsOf d) + extraOccurrences (projectIdsOf d) +
        extraOccurrences (integrationIdsOf d) := by
  obtain ⟨he, _, _, hd, _, _, _⟩ := validateDataQuality_spec d
  have hkeys : ((snapshotCollections d).map Prod.fst).Nodup := by
    simp [snapshotCollections]
  constructor
  · intro c ids hmem
    have hblock : (validateDataQuality d).errors.filter
        (fun e => decide (e.type = ErrorType.duplicate ∧ e.entity = c)) =
        (dupFlagsIdx [] ids).map (fun p => mkDupError c p.2) := by
      rw [he, List.filter_append]
      have h2 : (refErrorsOf d).filter
          (fun e => decide (e.type = ErrorType.duplicate ∧ e.entity = c)) = [] := by
        rw [List.filter_eq_nil_iff]
        intro e heM
        simp [mem_refErrorsOf_type d e heM]
      rw [h2, List.append_nil]
      exact filter_dupBlocks_mem (snapshotCollections d) c ids hkeys hmem
    refine ⟨hblock, ?_, ?_⟩
    · intro x k hk hk1
      rw [filter_dup_value_split, hblock, length_filter_value]
      have hcount := count_snd_dupFlagsIdx x ids []
      simp only [List.not_mem_nil, if_false] at hcount
      rw [hcount, hk]
    · intro j x hjx hx
      exact firstOccurrence_not_flagged ids j x hx
  · rw [hd]
    have hlen : (dupErrorsOf d).length =
        (dupFlagsIdx [] (companyIdsOf d)).length + (dupFlagsIdx [] (techIdsOf d)).length +
          (dupFlagsIdx [] (moduleIdsOf d)).length + (dupFlagsIdx [] (projectIdsOf d)).length +
          (dupFlagsIdx [] (integrationIdsOf d)).length := by
      simp [dupErrorsOf, snapshotCollections]
      omega
    rw [hlen, length_dupFlagsIdx_eq_extras, length_dupFlagsIdx_eq_extras,
      length_dupFlagsIdx_eq_extras, length_dupFlagsIdx_eq_extras,
      length_dupFlagsIdx_eq_extras]

theorem claim_duplicate_detection_witness :
    ((validateDataQuality sampleDupSnapshot).errors.filter
        (fun e => decide (e.type = ErrorType.duplicate ∧ e.entity = "companies" ∧
          e.value = some "acme"))).length = 2 - 1 := by
  have h := (claim_duplicate_detection sampleDupSnapshot).1 "companies"
    (companyIdsOf sampleDupSnapshot) (List.mem_cons_self _ _)
  exact h.2.1 "acme" 2 (by decide) (by decide)

/-- Counterexample to claim C6 as stated: on input "A" the schema as the
claim describes it (normalize first, then accept) would accept and return
"a", but `entityIdSchema` validates the regex on the raw input and
rejects "A"; the two disagree. -/
theorem claim_id_schema_counterexample :
    entityIdSchema ['A'] = none ∧
    entityIdSchemaClaimed ['A'] = some ['a'] ∧
    entityIdSchema ['A'] ≠ entityIdSchemaClaimed ['A'] := by
  refine ⟨by decide, by decide, by decide⟩

/-- Claim C6 (amended): `entityIdSchema` validates the RAW input — it
accepts exactly the non-empty strings all of whose characters are in
`[a-z0-9_-]` — and only then applies the lowercase/trim transform, which
leaves every accepted identifier unchanged; every accepted identifier is
non-empty.  Inputs containing uppercase letters or whitespace are
rejected, not normalized. -/
theorem claim_id_schema_amended (s : List Char) :
    ((entityIdSchema s).isSome = true ↔ s ≠ [] ∧ s.all idCharOk = true) ∧
    (∀ t, entityIdSchema s = some t → t = s ∧ t ≠ []) := by
  constructor
  · by_cases h : 1 ≤ s.length ∧ s.all idCharOk
    · have hsome : (entityIdSchema s).isSome = true := by
        unfold entityIdSchema
        rw [if_pos h]
        rfl
      rw [hsome]
      simp only [true_iff]
      refine ⟨?_, h.2⟩
      intro hnil
      rw [hnil] at h
      simp at h
    · have hnone : (entityIdSchema s).isSome = false := by
        unfold entityIdSchema
        rw [if_neg h]
        rfl
      rw [hnone]
      constructor
      · intro hfalse
        simp at hfalse
      · intro hc
        exfalso
        apply h
        refine ⟨?_, hc.2⟩
        cases s with
        | nil => exact absurd rfl hc.1
        | cons a t => simp
  · intro t ht
    unfold entityIdSchema at ht
    by_cases h : 1 ≤ s.length ∧ s.all idCharOk
    · rw [if_pos h] at ht
      have hall : ∀ c ∈ s, idCharOk c = true := by
        intro c hc
        exact List.all_eq_true.1 h.2 c hc
      rw [jsToLower_eq_self s hall,
        jsTrim_eq_self s (fun c hc => notWhitespace_of_idCharOk c (hall c hc))] at ht
      obtain rfl := (Option.some_injective _ ht).symm
      refine ⟨rfl, ?_⟩
      intro hnil
      rw [hnil] at h
      simp at h
    · rw [if_neg h] at ht
      exact absurd ht (by simp)

theorem claim_id_schema_amended_witness :
    (entityIdSchema ['a']).isSome = true ∧
    (['a'] : List Char) = ['a'] ∧ (['a'] : List Char) ≠ [] :=
  ⟨(claim_id_schema_amended ['a']).1.mpr (by decide),
    (claim_id_schema_amended ['a']).2 ['a'] (by decide)⟩

/-- Claim C8: the admin quality check counts duplicate project titles and
skill names case-sensitively via a frequency map whose keys are the
distinct values in first-occurrence order with their exact counts, and
emits exactly one warning and one `stats.duplicates` increment per
distinct duplicated value (not per extra occurrence); in particular
titles ["X", "X", "Y"] yield one warning and `stats.duplicates = 1`. -/
theorem claim_admin_duplicate_counting (ps : List AdminProject) (ss : List AdminSkill)
    (es : List AdminExperience) :
    (runQualityCheck ps ss es).warnings =
      ((freqMap (ps.map (fun p => p.title))).filter (fun q => decide (1 < q.2))).map
        (fun q => mkDupTitleWarning q.1 q.2) ++
      ((freqMap (ss.map (fun s => s.name))).filter (fun q => decide (1 < q.2))).map
        (fun q => mkDupSkillWarning q.1 q.2) ∧
    (runQualityCheck ps ss es).stats.duplicates =
      ((freqMap (ps.map (fun p => p.title))).filter (fun q => decide (1 < q.2))).length +
        ((freqMap (ss.map (fun s => s.name))).filter (fun q => decide (1 < q.2))).length ∧
    (∀ x n, ((x, n) ∈ freqMap (ps.map (fun p => p.title)) ↔
        x ∈ ps.map (fun p => p.title) ∧ n = (ps.map (fun p => p.title)).count x) ∧
      ((x, n) ∈ freqMap (ss.map (fun s => s.name)) ↔
        x ∈ ss.map (fun s => s.name) ∧ n = (ss.map (fun s => s.name)).count x)) ∧
    ((freqMap (ps.map (fun p => p.title))).map Prod.fst).Nodup ∧
    (runQualityCheck [{ id := "1", title := "X" }, { id := "2", title := "X" },
        { id := "3", title := "Y" }] [] []).warnings.length = 1 ∧
    (runQualityCheck [{ id := "1", title := "X" }, { id := "2", title := "X" },
        { id := "3", title := "Y" }] [] []).stats.duplicates = 1 := by
  have hrq : runQualityCheck ps ss es =
      dupWarnLoop mkDupSkillWarning (freqMap (ss.map (fun s => s.name)))
        (dupWarnLoop mkDupTitleWarning (freqMap (ps.map (fun p => p.title)))
          { isValid := true, errors := [], warnings := [],
            stats := { totalEntities := ps.length + ss.length + es.length,
                       duplicates := 0, brokenReferences := 0, unusedEntities := 0 } }) := rfl
  obtain ⟨a1, a2, a3, a4, a5, a6, a7⟩ :=
    dupWarnLoop_spec mkDupTitleWarning (freqMap (ps.map (fun p => p.title)))
      { isValid := true, errors := [], warnings := [],
        stats := { totalEntities := ps.length + ss.length + es.length,
                   duplicates := 0, brokenReferences := 0, unusedEntities := 0 } }
  obtain ⟨b1, b2, b3, b4, b5, b6, b7⟩ :=
    dupWarnLoop_spec mkDupSkillWarning (freqMap (ss.map (fun s => s.name)))
      (dupWarnLoop mkDupTitleWarning (freqMap (ps.map (fun p => p.title)))
        { isValid := true, errors := [], warnings := [],
          stats := { totalEntities := ps.length + ss.length + es.length,
                     duplicates := 0, brokenReferences := 0, unusedEntities := 0 } })
  have hnodupT : ((freqMap (ps.map (fun p => p.title))).map Prod.fst).Nodup := by
    unfold freqMap
    exact nodup_keys_freqLoop (ps.map (fun p => p.title)) [] (by simp)
  have hnodupS : ((freqMap (ss.map (fun s => s.name))).map Prod.fst).Nodup := by
    unfold freqMap
    exact nodup_keys_freqLoop (ss.map (fun s => s.name)) [] (by simp)
  have hmemiff : ∀ (l : List String) (x : String) (n : Nat),
      ((freqMap l).map Prod.fst).Nodup →
      ((x, n) ∈ freqMap l ↔ x ∈ l ∧ n = l.count x) := by
    intro l x n hnd
    rw [mem_assoc_iff_findCount (freqMap l) hnd x n]
    unfold freqMap
    rw [findCount_freqLoop l [] x]
    by_cases hx : x ∈ l
    · simp [hx, findCount]
      constructor
      · intro h; omega
      · intro h; omega
    · simp [hx, findCount]
  refine ⟨?_, ?_, ?_, hnodupT, ?_, ?_⟩
  · rw [hrq, b2, a2]
    simp
  · rw [hrq, b4, a4]
    simp
  · intro x n
    exact ⟨hmemiff _ x n hnodupT, hmemiff _ x n hnodupS⟩
  · decide
  · decide
